import Mathlib

set_option maxRecDepth 40000

/-!
Shallow embedding of `src/data_processing.py`: a character-bigram counting
pipeline.  Strings are modelled as `List Char`, Python dictionaries as
association lists with insert-or-overwrite semantics preserving first
insertion order (the semantics of CPython dicts), `str.split()` and
`str.lower()` with the Unicode whitespace set and lowercase mapping of
CPython, and the torch count tensor as a `List (List Int)` whose cells
wrap at 2^31 like `torch.int32` and where out-of-bounds indexing is an
error (`Option.none`), as `bigram_counts[i, j]` raises `IndexError` in
torch.
-/

namespace DataProcessing

/-- A Python `Dict[str, int]` with single-character keys: an association
list whose keys are kept distinct by `dictInsert`. -/
abbrev Dict := List (Char × Nat)

/-- A Python `Dict[int, str]` with single-character values. -/
abbrev IDict := List (Nat × Char)

/-- Python `d[k]` lookup / `k in d` membership (first matching key; keys
are unique by construction). -/
def dictGet? : Dict → Char → Option Nat
  | [], _ => none
  | (k, v) :: rest, c => if k = c then some v else dictGet? rest c

/-- Python `d[k] = v`: overwrite in place if the key exists (its position
is kept), otherwise append at the end. -/
def dictInsert : Dict → Char → Nat → Dict
  | [], k, v => [(k, v)]
  | (k', v') :: rest, k, v =>
      if k' = k then (k', v) :: rest else (k', v') :: dictInsert rest k v

/-- The keys of the dictionary, in insertion order. -/
def dictKeys (d : Dict) : List Char := d.map Prod.fst

/-- The values of the dictionary, in key insertion order. -/
def dictValues (d : Dict) : List Nat := d.map Prod.snd

/-- Lookup in a reverse dictionary. -/
def idictGet? : IDict → Nat → Option Char
  | [], _ => none
  | (k, v) :: rest, i => if k = i then some v else idictGet? rest i

/-- Python `d[k] = v` for the reverse dictionary. -/
def idictInsert : IDict → Nat → Char → IDict
  | [], k, v => [(k, v)]
  | (k', v') :: rest, k, v =>
      if k' = k then (k', v) :: rest else (k', v') :: idictInsert rest k v

/-- The loop `for idx, char in enumerate(alphabet, start=1): char_to_idx[char] = idx`,
with `i` the next index to assign. -/
def assignAlphabet (d : Dict) : List Char → Nat → Dict
  | [], _ => d
  | c :: cs, i => assignAlphabet (dictInsert d c i) cs (i + 1)

/-- `char_to_index(alphabet, start_token, end_token)`: start token at index
0, alphabet characters at 1.., end token at `len(alphabet) + 1`. -/
def char_to_index (alphabet : List Char) (start_token end_token : Char) : Dict :=
  dictInsert (assignAlphabet [(start_token, 0)] alphabet 1)
    end_token (alphabet.length + 1)

/-- `index_to_char(char_to_index)`: the dict comprehension
`{index: char for char, index in char_to_index.items()}` (later entries
overwrite earlier ones on index collision). -/
def index_to_char (d : Dict) : IDict :=
  d.foldl (fun acc kv => idictInsert acc kv.2 kv.1) []

/-- The separator set of Python `str.split()` with no argument: exactly
the code points for which `str.isspace()` is true (U+0009..U+000D,
U+001C..U+001F, space, U+0085, U+00A0, U+1680, U+2000..U+200A, U+2028,
U+2029, U+202F, U+205F, U+3000). -/
def isPySpace (c : Char) : Bool :=
  (9 ≤ c.toNat && c.toNat ≤ 13) || (28 ≤ c.toNat && c.toNat ≤ 32) ||
  c.toNat == 133 || c.toNat == 160 || c.toNat == 5760 ||
  (8192 ≤ c.toNat && c.toNat ≤ 8202) || c.toNat == 8232 ||
  c.toNat == 8233 || c.toNat == 8239 || c.toNat == 8287 || c.toNat == 12288

/-- Accumulator-passing splitter: `acc` holds the characters of the token
in progress, reversed. -/
def splitAux : List Char → List Char → List (List Char)
  | [], acc => if acc = [] then [] else [acc.reverse]
  | c :: cs, acc =>
      if isPySpace c then
        if acc = [] then splitAux cs [] else acc.reverse :: splitAux cs []
      else splitAux cs (c :: acc)

/-- Python `line.split()`: split on runs of whitespace, dropping empty
tokens. -/
def pySplit (line : List Char) : List (List Char) := splitAux line []

/-- Part 0 of the Unicode lowercase table (code points changed by Python str.lower, with their lowercase image). -/
def lowerTable0 : List (Nat × List Nat) := [
  (65, [97]), (66, [98]), (67, [99]), (68, [100]), (69, [101]), (70, [102]),
  (71, [103]), (72, [104]), (73, [105]), (74, [106]), (75, [107]), (76, [108]),
  (77, [109]), (78, [110]), (79, [111]), (80, [112]), (81, [113]), (82, [114]),
  (83, [115]), (84, [116]), (85, [117]), (86, [118]), (87, [119]), (88, [120]),
  (89, [121]), (90, [122]), (192, [224]), (193, [225]), (194, [226]), (195, [227]),
  (196, [228]), (197, [229]), (198, [230]), (199, [231]), (200, [232]), (201, [233]),
  (202, [234]), (203, [235]), (204, [236]), (205, [237]), (206, [238]), (207, [239]),
  (208, [240]), (209, [241]), (210, [242]), (211, [243]), (212, [244]), (213, [245]),
  (214, [246]), (216, [248]), (217, [249]), (218, [250]), (219, [251]), (220, [252]),
  (221, [253]), (222, [254]), (256, [257]), (258, [259]), (260, [261]), (262, [263]),
  (264, [265]), (266, [267]), (268, [269]), (270, [271]), (272, [273]), (274, [275]),
  (276, [277]), (278, [279]), (280, [281]), (282, [283]), (284, [285]), (286, [287]),
  (288, [289]), (290, [291]), (292, [293]), (294, [295]), (296, [297]), (298, [299]),
  (300, [301]), (302, [303]), (304, [105, 775]), (306, [307]), (308, [309]), (310, [311]),
  (313, [314]), (315, [316]), (317, [318]), (319, [320]), (321, [322]), (323, [324]),
  (325, [326]), (327, [328]), (330, [331]), (332, [333]), (334, [335]), (336, [337]),
  (338, [339]), (340, [341]), (342, [343]), (344, [345]), (346, [347]), (348, [349]),
  (350, [351]), (352, [353]), (354, [355]), (356, [357]), (358, [359]), (360, [361]),
  (362, [363]), (364, [365]), (366, [367]), (368, [369]), (370, [371]), (372, [373]),
  (374, [375]), (376, [255]), (377, [378]), (379, [380]), (381, [382]), (385, [595]),
  (386, [387]), (388, [389]), (390, [596]), (391, [392]), (393, [598]), (394, [599]),
  (395, [396]), (398, [477]), (399, [601]), (400, [603]), (401, [402]), (403, [608]),
  (404, [611]), (406, [617]), (407, [616]), (408, [409]), (412, [623]), (413, [626]),
  (415, [629]), (416, [417]), (418, [419]), (420, [421]), (422, [640]), (423, [424]),
  (425, [643]), (428, [429]), (430, [648]), (431, [432]), (433, [650]), (434, [651]),
  (435, [436]), (437, [438]), (439, [658]), (440, [441]), (444, [445]), (452, [454]),
  (453, [454]), (455, [457]), (456, [457]), (458, [460]), (459, [460]), (461, [462]),
  (463, [464]), (465, [466]), (467, [468]), (469, [470]), (471, [472]), (473, [474]),
  (475, [476]), (478, [479]), (480, [481]), (482, [483]), (484, [485]), (486, [487]),
  (488, [489]), (490, [491]), (492, [493]), (494, [495]), (497, [499]), (498, [499])
  ]

/-- Part 1 of the Unicode lowercase table (code points changed by Python str.lower, with their lowercase image). -/
def lowerTable1 : List (Nat × List Nat) := [
  (500, [501]), (502, [405]), (503, [447]), (504, [505]), (506, [507]), (508, [509]),
  (510, [511]), (512, [513]), (514, [515]), (516, [517]), (518, [519]), (520, [521]),
  (522, [523]), (524, [525]), (526, [527]), (528, [529]), (530, [531]), (532, [533]),
  (534, [535]), (536, [537]), (538, [539]), (540, [541]), (542, [543]), (544, [414]),
  (546, [547]), (548, [549]), (550, [551]), (552, [553]), (554, [555]), (556, [557]),
  (558, [559]), (560, [561]), (562, [563]), (570, [11365]), (571, [572]), (573, [410]),
  (574, [11366]), (577, [578]), (579, [384]), (580, [649]), (581, [652]), (582, [583]),
  (584, [585]), (586, [587]), (588, [589]), (590, [591]), (880, [881]), (882, [883]),
  (886, [887]), (895, [1011]), (902, [940]), (904, [941]), (905, [942]), (906, [943]),
  (908, [972]), (910, [973]), (911, [974]), (913, [945]), (914, [946]), (915, [947]),
  (916, [948]), (917, [949]), (918, [950]), (919, [951]), (920, [952]), (921, [953]),
  (922, [954]), (923, [955]), (924, [956]), (925, [957]), (926, [958]), (927, [959]),
  (928, [960]), (929, [961]), (931, [963]), (932, [964]), (933, [965]), (934, [966]),
  (935, [967]), (936, [968]), (937, [969]), (938, [970]), (939, [971]), (975, [983]),
  (984, [985]), (986, [987]), (988, [989]), (990, [991]), (992, [993]), (994, [995]),
  (996, [997]), (998, [999]), (1000, [1001]), (1002, [1003]), (1004, [1005]), (1006, [1007]),
  (1012, [952]), (1015, [1016]), (1017, [1010]), (1018, [1019]), (1021, [891]), (1022, [892]),
  (1023, [893]), (1024, [1104]), (1025, [1105]), (1026, [1106]), (1027, [1107]), (1028, [1108]),
  (1029, [1109]), (1030, [1110]), (1031, [1111]), (1032, [1112]), (1033, [1113]), (1034, [1114]),
  (1035, [1115]), (1036, [1116]), (1037, [1117]), (1038, [1118]), (1039, [1119]), (1040, [1072]),
  (1041, [1073]), (1042, [1074]), (1043, [1075]), (1044, [1076]), (1045, [1077]), (1046, [1078]),
  (1047, [1079]), (1048, [1080]), (1049, [1081]), (1050, [1082]), (1051, [1083]), (1052, [1084]),
  (1053, [1085]), (1054, [1086]), (1055, [1087]), (1056, [1088]), (1057, [1089]), (1058, [1090]),
  (1059, [1091]), (1060, [1092]), (1061, [1093]), (1062, [1094]), (1063, [1095]), (1064, [1096]),
  (1065, [1097]), (1066, [1098]), (1067, [1099]), (1068, [1100]), (1069, [1101]), (1070, [1102]),
  (1071, [1103]), (1120, [1121]), (1122, [1123]), (1124, [1125]), (1126, [1127]), (1128, [1129]),
  (1130, [1131]), (1132, [1133]), (1134, [1135]), (1136, [1137]), (1138, [1139]), (1140, [1141]),
  (1142, [1143]), (1144, [1145]), (1146, [1147]), (1148, [1149]), (1150, [1151]), (1152, [1153]),
  (1162, [1163]), (1164, [1165]), (1166, [1167]), (1168, [1169]), (1170, [1171]), (1172, [1173]),
  (1174, [1175]), (1176, [1177]), (1178, [1179]), (1180, [1181]), (1182, [1183]), (1184, [1185])
  ]

/-- Part 2 of the Unicode lowercase table (code points changed by Python str.lower, with their lowercase image). -/
def lowerTable2 : List (Nat × List Nat) := [
  (1186, [1187]), (1188, [1189]), (1190, [1191]), (1192, [1193]), (1194, [1195]), (1196, [1197]),
  (1198, [1199]), (1200, [1201]), (1202, [1203]), (1204, [1205]), (1206, [1207]), (1208, [1209]),
  (1210, [1211]), (1212, [1213]), (1214, [1215]), (1216, [1231]), (1217, [1218]), (1219, [1220]),
  (1221, [1222]), (1223, [1224]), (1225, [1226]), (1227, [1228]), (1229, [1230]), (1232, [1233]),
  (1234, [1235]), (1236, [1237]), (1238, [1239]), (1240, [1241]), (1242, [1243]), (1244, [1245]),
  (1246, [1247]), (1248, [1249]), (1250, [1251]), (1252, [1253]), (1254, [1255]), (1256, [1257]),
  (1258, [1259]), (1260, [1261]), (1262, [1263]), (1264, [1265]), (1266, [1267]), (1268, [1269]),
  (1270, [1271]), (1272, [1273]), (1274, [1275]), (1276, [1277]), (1278, [1279]), (1280, [1281]),
  (1282, [1283]), (1284, [1285]), (1286, [1287]), (1288, [1289]), (1290, [1291]), (1292, [1293]),
  (1294, [1295]), (1296, [1297]), (1298, [1299]), (1300, [1301]), (1302, [1303]), (1304, [1305]),
  (1306, [1307]), (1308, [1309]), (1310, [1311]), (1312, [1313]), (1314, [1315]), (1316, [1317]),
  (1318, [1319]), (1320, [1321]), (1322, [1323]), (1324, [1325]), (1326, [1327]), (1329, [1377]),
  (1330, [1378]), (1331, [1379]), (1332, [1380]), (1333, [1381]), (1334, [1382]), (1335, [1383]),
  (1336, [1384]), (1337, [1385]), (1338, [1386]), (1339, [1387]), (1340, [1388]), (1341, [1389]),
  (1342, [1390]), (1343, [1391]), (1344, [1392]), (1345, [1393]), (1346, [1394]), (1347, [1395]),
  (1348, [1396]), (1349, [1397]), (1350, [1398]), (1351, [1399]), (1352, [1400]), (1353, [1401]),
  (1354, [1402]), (1355, [1403]), (1356, [1404]), (1357, [1405]), (1358, [1406]), (1359, [1407]),
  (1360, [1408]), (1361, [1409]), (1362, [1410]), (1363, [1411]), (1364, [1412]), (1365, [1413]),
  (1366, [1414]), (4256, [11520]), (4257, [11521]), (4258, [11522]), (4259, [11523]), (4260, [11524]),
  (4261, [11525]), (4262, [11526]), (4263, [11527]), (4264, [11528]), (4265, [11529]), (4266, [11530]),
  (4267, [11531]), (4268, [11532]), (4269, [11533]), (4270, [11534]), (4271, [11535]), (4272, [11536]),
  (4273, [11537]), (4274, [11538]), (4275, [11539]), (4276, [11540]), (4277, [11541]), (4278, [11542]),
  (4279, [11543]), (4280, [11544]), (4281, [11545]), (4282, [11546]), (4283, [11547]), (4284, [11548]),
  (4285, [11549]), (4286, [11550]), (4287, [11551]), (4288, [11552]), (4289, [11553]), (4290, [11554]),
  (4291, [11555]), (4292, [11556]), (4293, [11557]), (4295, [11559]), (4301, [11565]), (5024, [43888]),
  (5025, [43889]), (5026, [43890]), (5027, [43891]), (5028, [43892]), (5029, [43893]), (5030, [43894]),
  (5031, [43895]), (5032, [43896]), (5033, [43897]), (5034, [43898]), (5035, [43899]), (5036, [43900]),
  (5037, [43901]), (5038, [43902]), (5039, [43903]), (5040, [43904]), (5041, [43905]), (5042, [43906]),
  (5043, [43907]), (5044, [43908]), (5045, [43909]), (5046, [43910]), (5047, [43911]), (5048, [43912]),
  (5049, [43913]), (5050, [43914]), (5051, [43915]), (5052, [43916]), (5053, [43917]), (5054, [43918])
  ]

/-- Part 3 of the Unicode lowercase table (code points changed by Python str.lower, with their lowercase image). -/
def lowerTable3 : List (Nat × List Nat) := [
  (5055, [43919]), (5056, [43920]), (5057, [43921]), (5058, [43922]), (5059, [43923]), (5060, [43924]),
  (5061, [43925]), (5062, [43926]), (5063, [43927]), (5064, [43928]), (5065, [43929]), (5066, [43930]),
  (5067, [43931]), (5068, [43932]), (5069, [43933]), (5070, [43934]), (5071, [43935]), (5072, [43936]),
  (5073, [43937]), (5074, [43938]), (5075, [43939]), (5076, [43940]), (5077, [43941]), (5078, [43942]),
  (5079, [43943]), (5080, [43944]), (5081, [43945]), (5082, [43946]), (5083, [43947]), (5084, [43948]),
  (5085, [43949]), (5086, [43950]), (5087, [43951]), (5088, [43952]), (5089, [43953]), (5090, [43954]),
  (5091, [43955]), (5092, [43956]), (5093, [43957]), (5094, [43958]), (5095, [43959]), (5096, [43960]),
  (5097, [43961]), (5098, [43962]), (5099, [43963]), (5100, [43964]), (5101, [43965]), (5102, [43966]),
  (5103, [43967]), (5104, [5112]), (5105, [5113]), (5106, [5114]), (5107, [5115]), (5108, [5116]),
  (5109, [5117]), (7312, [4304]), (7313, [4305]), (7314, [4306]), (7315, [4307]), (7316, [4308]),
  (7317, [4309]), (7318, [4310]), (7319, [4311]), (7320, [4312]), (7321, [4313]), (7322, [4314]),
  (7323, [4315]), (7324, [4316]), (7325, [4317]), (7326, [4318]), (7327, [4319]), (7328, [4320]),
  (7329, [4321]), (7330, [4322]), (7331, [4323]), (7332, [4324]), (7333, [4325]), (7334, [4326]),
  (7335, [4327]), (7336, [4328]), (7337, [4329]), (7338, [4330]), (7339, [4331]), (7340, [4332]),
  (7341, [4333]), (7342, [4334]), (7343, [4335]), (7344, [4336]), (7345, [4337]), (7346, [4338]),
  (7347, [4339]), (7348, [4340]), (7349, [4341]), (7350, [4342]), (7351, [4343]), (7352, [4344]),
  (7353, [4345]), (7354, [4346]), (7357, [4349]), (7358, [4350]), (7359, [4351]), (7680, [7681]),
  (7682, [7683]), (7684, [7685]), (7686, [7687]), (7688, [7689]), (7690, [7691]), (7692, [7693]),
  (7694, [7695]), (7696, [7697]), (7698, [7699]), (7700, [7701]), (7702, [7703]), (7704, [7705]),
  (7706, [7707]), (7708, [7709]), (7710, [7711]), (7712, [7713]), (7714, [7715]), (7716, [7717]),
  (7718, [7719]), (7720, [7721]), (7722, [7723]), (7724, [7725]), (7726, [7727]), (7728, [7729]),
  (7730, [7731]), (7732, [7733]), (7734, [7735]), (7736, [7737]), (7738, [7739]), (7740, [7741]),
  (7742, [7743]), (7744, [7745]), (7746, [7747]), (7748, [7749]), (7750, [7751]), (7752, [7753]),
  (7754, [7755]), (7756, [7757]), (7758, [7759]), (7760, [7761]), (7762, [7763]), (7764, [7765]),
  (7766, [7767]), (7768, [7769]), (7770, [7771]), (7772, [7773]), (7774, [7775]), (7776, [7777]),
  (7778, [7779]), (7780, [7781]), (7782, [7783]), (7784, [7785]), (7786, [7787]), (7788, [7789]),
  (7790, [7791]), (7792, [7793]), (7794, [7795]), (7796, [7797]), (7798, [7799]), (7800, [7801]),
  (7802, [7803]), (7804, [7805]), (7806, [7807]), (7808, [7809]), (7810, [7811]), (7812, [7813]),
  (7814, [7815]), (7816, [7817]), (7818, [7819]), (7820, [7821]), (7822, [7823]), (7824, [7825]),
  (7826, [7827]), (7828, [7829]), (7838, [223]), (7840, [7841]), (7842, [7843]), (7844, [7845])
  ]

/-- Part 4 of the Unicode lowercase table (code points changed by Python str.lower, with their lowercase image). -/
def lowerTable4 : List (Nat × List Nat) := [
  (7846, [7847]), (7848, [7849]), (7850, [7851]), (7852, [7853]), (7854, [7855]), (7856, [7857]),
  (7858, [7859]), (7860, [7861]), (7862, [7863]), (7864, [7865]), (7866, [7867]), (7868, [7869]),
  (7870, [7871]), (7872, [7873]), (7874, [7875]), (7876, [7877]), (7878, [7879]), (7880, [7881]),
  (7882, [7883]), (7884, [7885]), (7886, [7887]), (7888, [7889]), (7890, [7891]), (7892, [7893]),
  (7894, [7895]), (7896, [7897]), (7898, [7899]), (7900, [7901]), (7902, [7903]), (7904, [7905]),
  (7906, [7907]), (7908, [7909]), (7910, [7911]), (7912, [7913]), (7914, [7915]), (7916, [7917]),
  (7918, [7919]), (7920, [7921]), (7922, [7923]), (7924, [7925]), (7926, [7927]), (7928, [7929]),
  (7930, [7931]), (7932, [7933]), (7934, [7935]), (7944, [7936]), (7945, [7937]), (7946, [7938]),
  (7947, [7939]), (7948, [7940]), (7949, [7941]), (7950, [7942]), (7951, [7943]), (7960, [7952]),
  (7961, [7953]), (7962, [7954]), (7963, [7955]), (7964, [7956]), (7965, [7957]), (7976, [7968]),
  (7977, [7969]), (7978, [7970]), (7979, [7971]), (7980, [7972]), (7981, [7973]), (7982, [7974]),
  (7983, [7975]), (7992, [7984]), (7993, [7985]), (7994, [7986]), (7995, [7987]), (7996, [7988]),
  (7997, [7989]), (7998, [7990]), (7999, [7991]), (8008, [8000]), (8009, [8001]), (8010, [8002]),
  (8011, [8003]), (8012, [8004]), (8013, [8005]), (8025, [8017]), (8027, [8019]), (8029, [8021]),
  (8031, [8023]), (8040, [8032]), (8041, [8033]), (8042, [8034]), (8043, [8035]), (8044, [8036]),
  (8045, [8037]), (8046, [8038]), (8047, [8039]), (8072, [8064]), (8073, [8065]), (8074, [8066]),
  (8075, [8067]), (8076, [8068]), (8077, [8069]), (8078, [8070]), (8079, [8071]), (8088, [8080]),
  (8089, [8081]), (8090, [8082]), (8091, [8083]), (8092, [8084]), (8093, [8085]), (8094, [8086]),
  (8095, [8087]), (8104, [8096]), (8105, [8097]), (8106, [8098]), (8107, [8099]), (8108, [8100]),
  (8109, [8101]), (8110, [8102]), (8111, [8103]), (8120, [8112]), (8121, [8113]), (8122, [8048]),
  (8123, [8049]), (8124, [8115]), (8136, [8050]), (8137, [8051]), (8138, [8052]), (8139, [8053]),
  (8140, [8131]), (8152, [8144]), (8153, [8145]), (8154, [8054]), (8155, [8055]), (8168, [8160]),
  (8169, [8161]), (8170, [8058]), (8171, [8059]), (8172, [8165]), (8184, [8056]), (8185, [8057]),
  (8186, [8060]), (8187, [8061]), (8188, [8179]), (8486, [969]), (8490, [107]), (8491, [229]),
  (8498, [8526]), (8544, [8560]), (8545, [8561]), (8546, [8562]), (8547, [8563]), (8548, [8564]),
  (8549, [8565]), (8550, [8566]), (8551, [8567]), (8552, [8568]), (8553, [8569]), (8554, [8570]),
  (8555, [8571]), (8556, [8572]), (8557, [8573]), (8558, [8574]), (8559, [8575]), (8579, [8580]),
  (9398, [9424]), (9399, [9425]), (9400, [9426]), (9401, [9427]), (9402, [9428]), (9403, [9429]),
  (9404, [9430]), (9405, [9431]), (9406, [9432]), (9407, [9433]), (9408, [9434]), (9409, [9435]),
  (9410, [9436]), (9411, [9437]), (9412, [9438]), (9413, [9439]), (9414, [9440]), (9415, [9441])
  ]

/-- Part 5 of the Unicode lowercase table (code points changed by Python str.lower, with their lowercase image). -/
def lowerTable5 : List (Nat × List Nat) := [
  (9416, [9442]), (9417, [9443]), (9418, [9444]), (9419, [9445]), (9420, [9446]), (9421, [9447]),
  (9422, [9448]), (9423, [9449]), (11264, [11312]), (11265, [11313]), (11266, [11314]), (11267, [11315]),
  (11268, [11316]), (11269, [11317]), (11270, [11318]), (11271, [11319]), (11272, [11320]), (11273, [11321]),
  (11274, [11322]), (11275, [11323]), (11276, [11324]), (11277, [11325]), (11278, [11326]), (11279, [11327]),
  (11280, [11328]), (11281, [11329]), (11282, [11330]), (11283, [11331]), (11284, [11332]), (11285, [11333]),
  (11286, [11334]), (11287, [11335]), (11288, [11336]), (11289, [11337]), (11290, [11338]), (11291, [11339]),
  (11292, [11340]), (11293, [11341]), (11294, [11342]), (11295, [11343]), (11296, [11344]), (11297, [11345]),
  (11298, [11346]), (11299, [11347]), (11300, [11348]), (11301, [11349]), (11302, [11350]), (11303, [11351]),
  (11304, [11352]), (11305, [11353]), (11306, [11354]), (11307, [11355]), (11308, [11356]), (11309, [11357]),
  (11310, [11358]), (11311, [11359]), (11360, [11361]), (11362, [619]), (11363, [7549]), (11364, [637]),
  (11367, [11368]), (11369, [11370]), (11371, [11372]), (11373, [593]), (11374, [625]), (11375, [592]),
  (11376, [594]), (11378, [11379]), (11381, [11382]), (11390, [575]), (11391, [576]), (11392, [11393]),
  (11394, [11395]), (11396, [11397]), (11398, [11399]), (11400, [11401]), (11402, [11403]), (11404, [11405]),
  (11406, [11407]), (11408, [11409]), (11410, [11411]), (11412, [11413]), (11414, [11415]), (11416, [11417]),
  (11418, [11419]), (11420, [11421]), (11422, [11423]), (11424, [11425]), (11426, [11427]), (11428, [11429]),
  (11430, [11431]), (11432, [11433]), (11434, [11435]), (11436, [11437]), (11438, [11439]), (11440, [11441]),
  (11442, [11443]), (11444, [11445]), (11446, [11447]), (11448, [11449]), (11450, [11451]), (11452, [11453]),
  (11454, [11455]), (11456, [11457]), (11458, [11459]), (11460, [11461]), (11462, [11463]), (11464, [11465]),
  (11466, [11467]), (11468, [11469]), (11470, [11471]), (11472, [11473]), (11474, [11475]), (11476, [11477]),
  (11478, [11479]), (11480, [11481]), (11482, [11483]), (11484, [11485]), (11486, [11487]), (11488, [11489]),
  (11490, [11491]), (11499, [11500]), (11501, [11502]), (11506, [11507]), (42560, [42561]), (42562, [42563]),
  (42564, [42565]), (42566, [42567]), (42568, [42569]), (42570, [42571]), (42572, [42573]), (42574, [42575]),
  (42576, [42577]), (42578, [42579]), (42580, [42581]), (42582, [42583]), (42584, [42585]), (42586, [42587]),
  (42588, [42589]), (42590, [42591]), (42592, [42593]), (42594, [42595]), (42596, [42597]), (42598, [42599]),
  (42600, [42601]), (42602, [42603]), (42604, [42605]), (42624, [42625]), (42626, [42627]), (42628, [42629]),
  (42630, [42631]), (42632, [42633]), (42634, [42635]), (42636, [42637]), (42638, [42639]), (42640, [42641]),
  (42642, [42643]), (42644, [42645]), (42646, [42647]), (42648, [42649]), (42650, [42651]), (42786, [42787]),
  (42788, [42789]), (42790, [42791]), (42792, [42793]), (42794, [42795]), (42796, [42797]), (42798, [42799]),
  (42802, [42803]), (42804, [42805]), (42806, [42807]), (42808, [42809]), (42810, [42811]), (42812, [42813]),
  (42814, [42815]), (42816, [42817]), (42818, [42819]), (42820, [42821]), (42822, [42823]), (42824, [42825])
  ]

/-- Part 6 of the Unicode lowercase table (code points changed by Python str.lower, with their lowercase image). -/
def lowerTable6 : List (Nat × List Nat) := [
  (42826, [42827]), (42828, [42829]), (42830, [42831]), (42832, [42833]), (42834, [42835]), (42836, [42837]),
  (42838, [42839]), (42840, [42841]), (42842, [42843]), (42844, [42845]), (42846, [42847]), (42848, [42849]),
  (42850, [42851]), (42852, [42853]), (42854, [42855]), (42856, [42857]), (42858, [42859]), (42860, [42861]),
  (42862, [42863]), (42873, [42874]), (42875, [42876]), (42877, [7545]), (42878, [42879]), (42880, [42881]),
  (42882, [42883]), (42884, [42885]), (42886, [42887]), (42891, [42892]), (42893, [613]), (42896, [42897]),
  (42898, [42899]), (42902, [42903]), (42904, [42905]), (42906, [42907]), (42908, [42909]), (42910, [42911]),
  (42912, [42913]), (42914, [42915]), (42916, [42917]), (42918, [42919]), (42920, [42921]), (42922, [614]),
  (42923, [604]), (42924, [609]), (42925, [620]), (42926, [618]), (42928, [670]), (42929, [647]),
  (42930, [669]), (42931, [43859]), (42932, [42933]), (42934, [42935]), (42936, [42937]), (42938, [42939]),
  (42940, [42941]), (42942, [42943]), (42944, [42945]), (42946, [42947]), (42948, [42900]), (42949, [642]),
  (42950, [7566]), (42951, [42952]), (42953, [42954]), (42960, [42961]), (42966, [42967]), (42968, [42969]),
  (42997, [42998]), (65313, [65345]), (65314, [65346]), (65315, [65347]), (65316, [65348]), (65317, [65349]),
  (65318, [65350]), (65319, [65351]), (65320, [65352]), (65321, [65353]), (65322, [65354]), (65323, [65355]),
  (65324, [65356]), (65325, [65357]), (65326, [65358]), (65327, [65359]), (65328, [65360]), (65329, [65361]),
  (65330, [65362]), (65331, [65363]), (65332, [65364]), (65333, [65365]), (65334, [65366]), (65335, [65367]),
  (65336, [65368]), (65337, [65369]), (65338, [65370]), (66560, [66600]), (66561, [66601]), (66562, [66602]),
  (66563, [66603]), (66564, [66604]), (66565, [66605]), (66566, [66606]), (66567, [66607]), (66568, [66608]),
  (66569, [66609]), (66570, [66610]), (66571, [66611]), (66572, [66612]), (66573, [66613]), (66574, [66614]),
  (66575, [66615]), (66576, [66616]), (66577, [66617]), (66578, [66618]), (66579, [66619]), (66580, [66620]),
  (66581, [66621]), (66582, [66622]), (66583, [66623]), (66584, [66624]), (66585, [66625]), (66586, [66626]),
  (66587, [66627]), (66588, [66628]), (66589, [66629]), (66590, [66630]), (66591, [66631]), (66592, [66632]),
  (66593, [66633]), (66594, [66634]), (66595, [66635]), (66596, [66636]), (66597, [66637]), (66598, [66638]),
  (66599, [66639]), (66736, [66776]), (66737, [66777]), (66738, [66778]), (66739, [66779]), (66740, [66780]),
  (66741, [66781]), (66742, [66782]), (66743, [66783]), (66744, [66784]), (66745, [66785]), (66746, [66786]),
  (66747, [66787]), (66748, [66788]), (66749, [66789]), (66750, [66790]), (66751, [66791]), (66752, [66792]),
  (66753, [66793]), (66754, [66794]), (66755, [66795]), (66756, [66796]), (66757, [66797]), (66758, [66798]),
  (66759, [66799]), (66760, [66800]), (66761, [66801]), (66762, [66802]), (66763, [66803]), (66764, [66804]),
  (66765, [66805]), (66766, [66806]), (66767, [66807]), (66768, [66808]), (66769, [66809]), (66770, [66810]),
  (66771, [66811]), (66928, [66967]), (66929, [66968]), (66930, [66969]), (66931, [66970]), (66932, [66971]),
  (66933, [66972]), (66934, [66973]), (66935, [66974]), (66936, [66975]), (66937, [66976]), (66938, [66977])
  ]

/-- Part 7 of the Unicode lowercase table (code points changed by Python str.lower, with their lowercase image). -/
def lowerTable7 : List (Nat × List Nat) := [
  (66940, [66979]), (66941, [66980]), (66942, [66981]), (66943, [66982]), (66944, [66983]), (66945, [66984]),
  (66946, [66985]), (66947, [66986]), (66948, [66987]), (66949, [66988]), (66950, [66989]), (66951, [66990]),
  (66952, [66991]), (66953, [66992]), (66954, [66993]), (66956, [66995]), (66957, [66996]), (66958, [66997]),
  (66959, [66998]), (66960, [66999]), (66961, [67000]), (66962, [67001]), (66964, [67003]), (66965, [67004]),
  (68736, [68800]), (68737, [68801]), (68738, [68802]), (68739, [68803]), (68740, [68804]), (68741, [68805]),
  (68742, [68806]), (68743, [68807]), (68744, [68808]), (68745, [68809]), (68746, [68810]), (68747, [68811]),
  (68748, [68812]), (68749, [68813]), (68750, [68814]), (68751, [68815]), (68752, [68816]), (68753, [68817]),
  (68754, [68818]), (68755, [68819]), (68756, [68820]), (68757, [68821]), (68758, [68822]), (68759, [68823]),
  (68760, [68824]), (68761, [68825]), (68762, [68826]), (68763, [68827]), (68764, [68828]), (68765, [68829]),
  (68766, [68830]), (68767, [68831]), (68768, [68832]), (68769, [68833]), (68770, [68834]), (68771, [68835]),
  (68772, [68836]), (68773, [68837]), (68774, [68838]), (68775, [68839]), (68776, [68840]), (68777, [68841]),
  (68778, [68842]), (68779, [68843]), (68780, [68844]), (68781, [68845]), (68782, [68846]), (68783, [68847]),
  (68784, [68848]), (68785, [68849]), (68786, [68850]), (71840, [71872]), (71841, [71873]), (71842, [71874]),
  (71843, [71875]), (71844, [71876]), (71845, [71877]), (71846, [71878]), (71847, [71879]), (71848, [71880]),
  (71849, [71881]), (71850, [71882]), (71851, [71883]), (71852, [71884]), (71853, [71885]), (71854, [71886]),
  (71855, [71887]), (71856, [71888]), (71857, [71889]), (71858, [71890]), (71859, [71891]), (71860, [71892]),
  (71861, [71893]), (71862, [71894]), (71863, [71895]), (71864, [71896]), (71865, [71897]), (71866, [71898]),
  (71867, [71899]), (71868, [71900]), (71869, [71901]), (71870, [71902]), (71871, [71903]), (93760, [93792]),
  (93761, [93793]), (93762, [93794]), (93763, [93795]), (93764, [93796]), (93765, [93797]), (93766, [93798]),
  (93767, [93799]), (93768, [93800]), (93769, [93801]), (93770, [93802]), (93771, [93803]), (93772, [93804]),
  (93773, [93805]), (93774, [93806]), (93775, [93807]), (93776, [93808]), (93777, [93809]), (93778, [93810]),
  (93779, [93811]), (93780, [93812]), (93781, [93813]), (93782, [93814]), (93783, [93815]), (93784, [93816]),
  (93785, [93817]), (93786, [93818]), (93787, [93819]), (93788, [93820]), (93789, [93821]), (93790, [93822]),
  (93791, [93823]), (125184, [125218]), (125185, [125219]), (125186, [125220]), (125187, [125221]), (125188, [125222]),
  (125189, [125223]), (125190, [125224]), (125191, [125225]), (125192, [125226]), (125193, [125227]), (125194, [125228]),
  (125195, [125229]), (125196, [125230]), (125197, [125231]), (125198, [125232]), (125199, [125233]), (125200, [125234]),
  (125201, [125235]), (125202, [125236]), (125203, [125237]), (125204, [125238]), (125205, [125239]), (125206, [125240]),
  (125207, [125241]), (125208, [125242]), (125209, [125243]), (125210, [125244]), (125211, [125245]), (125212, [125246]),
  (125213, [125247]), (125214, [125248]), (125215, [125249]), (125216, [125250]), (125217, [125251])
  ]

/-- All code points whose Python str.lower image differs from themselves, with that image; concatenation of the parts above. -/
def lowerTable : List (Nat × List Nat) :=
  lowerTable0 ++ lowerTable1 ++ lowerTable2 ++ lowerTable3 ++ lowerTable4 ++ lowerTable5 ++ lowerTable6 ++ lowerTable7

/-- Python `str.lower()` of one character: the full Unicode lowercase
mapping used by CPython -- possibly several characters (U+0130 lowers to
two), identity for code points not in the table. -/
def pyLowerChar (c : Char) : List Char :=
  match lowerTable.lookup c.toNat with
  | some cs => cs.map Char.ofNat
  | none => [c]

/-- Python `word.lower()`, the concatenation of the per-character
lowercase images. -/
def pyLower (w : List Char) : List Char := (w.map pyLowerChar).flatten

/-- `[(pw[i], pw[i+1]) for i in range(len(pw) - 1)]`. -/
def bigramsOf (pw : List Char) : List (Char × Char) := pw.zip pw.tail

/-- The body of the `for line in lines` loop: split the line, skip it when
empty, otherwise lowercase the first token, pad it with the sentinels and
emit its bigrams. -/
def lineBigrams (start_token end_token : Char) (line : List Char) :
    List (Char × Char) :=
  match pySplit line with
  | [] => []
  | w :: _ => bigramsOf (start_token :: pyLower w ++ [end_token])

/-- `load_and_preprocess_data`: the file is modelled as its list of lines
(the result of `splitlines`); reading errors are outside the embedding. -/
def load_and_preprocess_data (lines : List (List Char))
    (start_token end_token : Char) : List (Char × Char) :=
  lines.foldr (fun line acc => lineBigrams start_token end_token line ++ acc) []

/-- Wrap-around of `torch.int32` arithmetic: reduce modulo 2^32 into the
signed range [-2147483648, 2147483648); 2147483648 = 2^31 and
4294967296 = 2^32. -/
def int32wrap (v : Int) : Int := (v + 2147483648) % 4294967296 - 2147483648

/-- `torch.zeros((n, n), dtype=torch.int32)`. -/
def zeros (n : Nat) : List (List Int) :=
  List.replicate n (List.replicate n (0 : Int))

/-- `bigram_counts[i, j] += 1` on the int32 tensor: the new cell value
wraps at 2^31 silently; `none` models torch raising `IndexError` when a
coordinate is out of bounds. -/
def torchIncr (m : List (List Int)) (i j : Nat) : Option (List (List Int)) :=
  match m.get? i with
  | none => none
  | some row =>
      match row.get? j with
      | none => none
      | some v => some (m.set i (row.set j (int32wrap (v + 1))))

/-- The `for char1, char2 in bigrams` loop of `count_bigrams`, `m` being
the tensor built so far. -/
def countLoop (d : Dict) (m : List (List Int)) :
    List (Char × Char) → Option (List (List Int))
  | [] => some m
  | (c1, c2) :: rest =>
      match dictGet? d c1, dictGet? d c2 with
      | some i, some j =>
          match torchIncr m i j with
          | none => none
          | some m' => countLoop d m' rest
      | _, _ => countLoop d m rest

/-- `count_bigrams(bigrams, char_to_idx)`: zero matrix of shape
`(len(char_to_idx), len(char_to_idx))`, one increment per bigram whose
two characters are both keys of the dictionary. -/
def count_bigrams (bigrams : List (Char × Char)) (char_to_idx : Dict) :
    Option (List (List Int)) :=
  countLoop char_to_idx (zeros char_to_idx.length) bigrams

/-- Cell `(i, j)` of the count tensor. -/
def getCell (m : List (List Int)) (i j : Nat) : Int :=
  (m.getD i []).getD j 0

/-- The total sum of the count tensor. -/
def sumMat (m : List (List Int)) : Int := (m.map List.sum).sum

/-- The full pipeline of the script: vocabulary from `char_to_index`,
bigrams from `load_and_preprocess_data`, counts from `count_bigrams`. -/
def pipeline (lines : List (List Char)) (alphabet : List Char)
    (start_token end_token : Char) : Option (List (List Int)) :=
  count_bigrams (load_and_preprocess_data lines start_token end_token)
    (char_to_index alphabet start_token end_token)

/-- Specification helper: the list of pairs `(cs[k], i + k)`, the shape the
alphabet-assignment loop produces when every key is fresh. -/
def enumPairs (i : Nat) : List Char → Dict
  | [] => []
  | c :: cs => (c, i) :: enumPairs (i + 1) cs

/-- Specification helper: the matrix is square of size `n`. -/
def IsSquare (n : Nat) (m : List (List Int)) : Prop :=
  m.length = n ∧ ∀ row ∈ m, row.length = n

example :
    load_and_preprocess_data [['a', 'n', 'n', 'a', ' ', '5', ' ', '3']] '-' '.' =
      [('-', 'a'), ('a', 'n'), ('n', 'n'), ('n', 'a'), ('a', '.')] := by decide

example : char_to_index ['a', 'b'] '-' '.' =
    [('-', 0), ('a', 1), ('b', 2), ('.', 3)] := by decide

example : index_to_char [('-', 0), ('a', 1)] = [(0, '-'), (1, 'a')] := by decide

example : count_bigrams [('a', 'b'), ('x', 'a'), ('a', 'b')]
    (char_to_index ['a', 'b'] '-' '.') =
    some [[0, 0, 0, 0], [0, 0, 2, 0], [0, 0, 0, 0], [0, 0, 0, 0]] := by decide

example : load_and_preprocess_data [['a']] '-' '.' =
    [('-', 'a'), ('a', '.')] := by decide

example : pySplit ['a', Char.ofNat 160, 'b'] = [['a'], ['b']] := by decide

example : lineBigrams '-' '.' [Char.ofNat 160] = [] := by decide

example : pyLower [Char.ofNat 201] = [Char.ofNat 233] := by decide

example : pyLower [Char.ofNat 304] = [Char.ofNat 105, Char.ofNat 775] := by
  decide

/-! ### Dictionary lemmas -/

theorem dictKeys_cons (k : Char) (v : Nat) (d : Dict) :
    dictKeys ((k, v) :: d) = k :: dictKeys d := rfl

theorem mem_dictKeys_of_mem {d : Dict} {kv : Char × Nat} (h : kv ∈ d) :
    kv.1 ∈ dictKeys d := List.mem_map_of_mem Prod.fst h

theorem dictGet?_insert (d : Dict) (k c : Char) (v : Nat) :
    dictGet? (dictInsert d k v) c = if k = c then some v else dictGet? d c := by
  induction d with
  | nil => simp [dictInsert, dictGet?]
  | cons kv rest ih =>
    obtain ⟨k', v'⟩ := kv
    simp only [dictInsert]
    by_cases hk : k' = k
    · rw [if_pos hk]
      subst hk
      by_cases hc : k' = c
      · simp [dictGet?, hc]
      · simp [dictGet?, hc]
    · rw [if_neg hk]
      by_cases hc : k' = c
      · have hkc : k ≠ c := fun h => hk (hc.trans h.symm)
        simp [dictGet?, hc, hkc]
      · simp [dictGet?, hc, ih]

theorem dictInsert_of_not_mem (d : Dict) (k : Char) (v : Nat)
    (h : k ∉ dictKeys d) : dictInsert d k v = d ++ [(k, v)] := by
  induction d with
  | nil => rfl
  | cons kv rest ih =>
    obtain ⟨k', v'⟩ := kv
    rw [dictKeys_cons] at h
    have h' : k ∉ dictKeys rest := fun hm => h (List.mem_cons_of_mem _ hm)
    have hne : k' ≠ k := fun he => h (he ▸ List.mem_cons_self k' (dictKeys rest))
    simp [dictInsert, hne, ih h']

theorem dictKeys_insert (d : Dict) (k : Char) (v : Nat) :
    dictKeys (dictInsert d k v) =
      if k ∈ dictKeys d then dictKeys d else dictKeys d ++ [k] := by
  induction d with
  | nil => simp [dictInsert, dictKeys]
  | cons kv rest ih =>
    obtain ⟨k', v'⟩ := kv
    simp only [dictInsert]
    by_cases hk : k' = k
    · rw [if_pos hk]
      subst hk
      simp [dictKeys_cons]
    · rw [if_neg hk, dictKeys_cons, dictKeys_cons, ih]
      by_cases hm : k ∈ dictKeys rest
      · rw [if_pos hm, if_pos (List.mem_cons_of_mem _ hm)]
      · rw [if_neg hm, if_neg ?_]
        · rfl
        · intro hmem
          rcases List.mem_cons.mp hmem with h | h
          · exact hk h.symm
          · exact hm h

theorem mem_of_dictGet?_eq_some {d : Dict} {c : Char} {v : Nat}
    (h : dictGet? d c = some v) : (c, v) ∈ d := by
  induction d with
  | nil => simp [dictGet?] at h
  | cons kv rest ih =>
    obtain ⟨k', v'⟩ := kv
    by_cases hk : k' = c
    · subst hk
      simp [dictGet?] at h
      subst h
      exact List.mem_cons_self _ _
    · simp only [dictGet?, if_neg hk] at h
      exact List.mem_cons_of_mem _ (ih h)

theorem dictGet?_of_mem {d : Dict} (hnd : (dictKeys d).Nodup) :
    ∀ kv ∈ d, dictGet? d kv.1 = some kv.2 := by
  induction d with
  | nil => intro kv h; simp at h
  | cons kv0 rest ih =>
    obtain ⟨k', v'⟩ := kv0
    rw [dictKeys_cons] at hnd
    have hnotmem := (List.nodup_cons.mp hnd).1
    have hnd' := (List.nodup_cons.mp hnd).2
    rintro ⟨c, v⟩ hmem
    rcases List.mem_cons.mp hmem with h | h
    · rw [Prod.mk.injEq] at h
      obtain ⟨rfl, rfl⟩ := h
      simp [dictGet?]
    · have hne : k' ≠ c := by
        intro he
        refine hnotmem ?_
        rw [he]
        exact List.mem_map_of_mem Prod.fst h
      simpa [dictGet?, hne] using ih hnd' (c, v) h

theorem dictGet?_eq_none_of_not_mem {d : Dict} {c : Char}
    (h : c ∉ dictKeys d) : dictGet? d c = none := by
  induction d with
  | nil => rfl
  | cons kv rest ih =>
    obtain ⟨k', v'⟩ := kv
    rw [dictKeys_cons] at h
    have h' : c ∉ dictKeys rest := fun hm => h (List.mem_cons_of_mem _ hm)
    have hne : k' ≠ c := fun he => h (he ▸ List.mem_cons_self k' (dictKeys rest))
    simp [dictGet?, hne, ih h']

/-! ### The shape of `char_to_index` under valid inputs -/

theorem enumPairs_keys (cs : List Char) : ∀ i, dictKeys (enumPairs i cs) = cs := by
  induction cs with
  | nil => intro i; rfl
  | cons c cs ih => intro i; simp [enumPairs, dictKeys] at *; exact ih (i + 1)

theorem enumPairs_values (cs : List Char) :
    ∀ i, dictValues (enumPairs i cs) = List.range' i cs.length := by
  induction cs with
  | nil => intro i; rfl
  | cons c cs ih =>
    intro i
    simp [enumPairs, dictValues, List.range'] at *
    exact ih (i + 1)

theorem enumPairs_length (cs : List Char) (i : Nat) :
    (enumPairs i cs).length = cs.length := by
  have := enumPairs_keys cs i
  simpa [dictKeys] using congrArg List.length this

theorem assignAlphabet_eq_append (cs : List Char) :
    ∀ (d : Dict) (i : Nat), cs.Nodup → (∀ c ∈ cs, c ∉ dictKeys d) →
      assignAlphabet d cs i = d ++ enumPairs i cs := by
  induction cs with
  | nil => intro d i _ _; simp [assignAlphabet, enumPairs]
  | cons c cs ih =>
    intro d i hnd hfresh
    have hc : c ∉ dictKeys d := hfresh c (by simp)
    have hstep : dictInsert d c i = d ++ [(c, i)] := dictInsert_of_not_mem d c i hc
    have hnd' : cs.Nodup := hnd.of_cons
    have hfresh' : ∀ x ∈ cs, x ∉ dictKeys (dictInsert d c i) := by
      intro x hx hmem
      rw [hstep] at hmem
      have hkeys : dictKeys (d ++ [(c, i)]) = dictKeys d ++ [c] := by
        simp [dictKeys]
      rw [hkeys] at hmem
      rcases List.mem_append.mp hmem with hm | hm
      · exact hfresh x (List.mem_cons_of_mem _ hx) hm
      · have hxc : x = c := by simpa using hm
        rw [hxc] at hx
        exact (List.nodup_cons.mp hnd).1 hx
    calc assignAlphabet d (c :: cs) i
        = assignAlphabet (dictInsert d c i) cs (i + 1) := rfl
      _ = dictInsert d c i ++ enumPairs (i + 1) cs := ih _ _ hnd' hfresh'
      _ = d ++ enumPairs i (c :: cs) := by rw [hstep, List.append_assoc]; rfl

theorem char_to_index_eq (a : List Char) (s e : Char)
    (hnd : a.Nodup) (hs : s ∉ a) (he : e ∉ a) (hse : s ≠ e) :
    char_to_index a s e = (s, 0) :: enumPairs 1 a ++ [(e, a.length + 1)] := by
  unfold char_to_index
  have hfr : ∀ c ∈ a, c ∉ dictKeys [(s, 0)] := by
    intro c hc hmem
    have hcs : c = s := by simpa [dictKeys] using hmem
    rw [hcs] at hc
    exact hs hc
  have h1 : assignAlphabet [(s, 0)] a 1 = (s, 0) :: enumPairs 1 a := by
    simpa using assignAlphabet_eq_append a [(s, 0)] 1 hnd hfr
  rw [h1]
  have hmem : e ∉ dictKeys ((s, 0) :: enumPairs 1 a) := by
    rw [dictKeys_cons, enumPairs_keys a 1]
    intro hm
    rcases List.mem_cons.mp hm with h | h
    · exact hse h.symm
    · exact he h
  simpa using dictInsert_of_not_mem _ _ _ hmem

theorem dictGet?_append (d₁ d₂ : Dict) (c : Char) :
    dictGet? (d₁ ++ d₂) c =
      match dictGet? d₁ c with
      | some v => some v
      | none => dictGet? d₂ c := by
  induction d₁ with
  | nil => rfl
  | cons kv rest ih =>
    obtain ⟨k', v'⟩ := kv
    by_cases hk : k' = c <;> simp [dictGet?, hk, ih]

theorem dictGet?_enumPairs_of_not_mem {cs : List Char} {c : Char} (h : c ∉ cs)
    (i : Nat) : dictGet? (enumPairs i cs) c = none := by
  refine dictGet?_eq_none_of_not_mem ?_
  rw [enumPairs_keys cs i]
  exact h

theorem dictGet?_enumPairs_getD (cs : List Char) (hnd : cs.Nodup) :
    ∀ i k, k < cs.length →
      dictGet? (enumPairs i cs) (cs.getD k ' ') = some (i + k) := by
  induction cs with
  | nil => intro i k hk; simp at hk
  | cons c cs ih =>
    intro i k hk
    match k with
    | 0 => simp [enumPairs, dictGet?]
    | Nat.succ k =>
      have hk' : k < cs.length := by simpa using hk
      have hmem : cs.getD k ' ' ∈ cs := by
        rw [List.getD_eq_getElem cs ' ' hk']
        exact List.getElem_mem hk'
      have hne : c ≠ cs.getD k ' ' := by
        intro he
        rw [he] at hnd
        exact (List.nodup_cons.mp hnd).1 hmem
      have : (c :: cs).getD (k + 1) ' ' = cs.getD k ' ' := rfl
      rw [this]
      simp only [enumPairs, dictGet?, if_neg hne]
      rw [ih hnd.of_cons (i + 1) k hk']
      congr 1
      omega

theorem range_eq_zero_cons_append (n : Nat) :
    List.range (n + 2) = 0 :: (List.range' 1 n ++ [n + 1]) := by
  rw [List.range_eq_range', List.range'_succ 0 (n + 1) 1]
  have h := @List.range'_concat 1 1 n
  simp only [one_mul] at h
  rw [h, Nat.add_comm 1 n]

theorem char_to_index_keys (a : List Char) (s e : Char)
    (hnd : a.Nodup) (hs : s ∉ a) (he : e ∉ a) (hse : s ≠ e) :
    dictKeys (char_to_index a s e) = s :: (a ++ [e]) := by
  rw [char_to_index_eq a s e hnd hs he hse]
  show s :: dictKeys (enumPairs 1 a ++ [(e, a.length + 1)]) = s :: (a ++ [e])
  congr 1
  have : dictKeys (enumPairs 1 a ++ [(e, a.length + 1)]) =
      dictKeys (enumPairs 1 a) ++ [e] := by simp [dictKeys]
  rw [this, enumPairs_keys a 1]

theorem char_to_index_values (a : List Char) (s e : Char)
    (hnd : a.Nodup) (hs : s ∉ a) (he : e ∉ a) (hse : s ≠ e) :
    dictValues (char_to_index a s e) = List.range (a.length + 2) := by
  rw [char_to_index_eq a s e hnd hs he hse, range_eq_zero_cons_append]
  show 0 :: dictValues (enumPairs 1 a ++ [(e, a.length + 1)]) =
    0 :: (List.range' 1 a.length ++ [a.length + 1])
  congr 1
  have : dictValues (enumPairs 1 a ++ [(e, a.length + 1)]) =
      dictValues (enumPairs 1 a) ++ [a.length + 1] := by simp [dictValues]
  rw [this, enumPairs_values a 1]

theorem char_to_index_length (a : List Char) (s e : Char)
    (hnd : a.Nodup) (hs : s ∉ a) (he : e ∉ a) (hse : s ≠ e) :
    (char_to_index a s e).length = a.length + 2 := by
  rw [char_to_index_eq a s e hnd hs he hse]
  simp [enumPairs_length]

theorem char_to_index_get_start (a : List Char) (s e : Char)
    (hnd : a.Nodup) (hs : s ∉ a) (he : e ∉ a) (hse : s ≠ e) :
    dictGet? (char_to_index a s e) s = some 0 := by
  rw [char_to_index_eq a s e hnd hs he hse]
  simp [dictGet?]

theorem char_to_index_get_alpha (a : List Char) (s e : Char)
    (hnd : a.Nodup) (hs : s ∉ a) (he : e ∉ a) (hse : s ≠ e) :
    ∀ k, k < a.length →
      dictGet? (char_to_index a s e) (a.getD k ' ') = some (k + 1) := by
  intro k hk
  rw [char_to_index_eq a s e hnd hs he hse]
  have hmem : a.getD k ' ' ∈ a := by
    rw [List.getD_eq_getElem a ' ' hk]
    exact List.getElem_mem hk
  have hne : s ≠ a.getD k ' ' := fun h => hs (h ▸ hmem)
  show dictGet? ((s, 0) :: (enumPairs 1 a ++ [(e, a.length + 1)])) (a.getD k ' ') =
    some (k + 1)
  simp only [dictGet?, if_neg hne]
  rw [dictGet?_append, dictGet?_enumPairs_getD a hnd 1 k hk]
  simp [Nat.add_comm]

theorem char_to_index_get_end (a : List Char) (s e : Char) :
    dictGet? (char_to_index a s e) e = some (a.length + 1) := by
  unfold char_to_index
  rw [dictGet?_insert]
  simp

theorem char_to_index_keys_nodup (a : List Char) (s e : Char)
    (hnd : a.Nodup) (hs : s ∉ a) (he : e ∉ a) (hse : s ≠ e) :
    (dictKeys (char_to_index a s e)).Nodup := by
  rw [char_to_index_keys a s e hnd hs he hse]
  rw [List.nodup_cons]
  constructor
  · intro hmem
    rcases List.mem_append.mp hmem with h | h
    · exact hs h
    · exact hse (by simpa using h)
  · rw [List.nodup_append]
    refine ⟨hnd, by simp, ?_⟩
    intro x hx hx'
    have : x = e := by simpa using hx'
    rw [this] at hx
    exact he hx

/-! ### The reverse mapping `index_to_char` -/

theorem idictInsert_of_not_mem (l : IDict) (k : Nat) (v : Char)
    (h : ∀ kv ∈ l, kv.1 ≠ k) : idictInsert l k v = l ++ [(k, v)] := by
  induction l with
  | nil => rfl
  | cons kv rest ih =>
    obtain ⟨k', v'⟩ := kv
    have hne : k' ≠ k := h (k', v') (List.mem_cons_self _ _)
    have h' : ∀ kv ∈ rest, kv.1 ≠ k := fun kv hm => h kv (List.mem_cons_of_mem _ hm)
    simp [idictInsert, hne, ih h']

theorem idictGet?_map_swap {d : Dict} (hnv : (dictValues d).Nodup) :
    ∀ kv ∈ d, idictGet? (d.map fun p => (p.2, p.1)) kv.2 = some kv.1 := by
  induction d with
  | nil => intro kv h; simp at h
  | cons kv0 rest ih =>
    obtain ⟨c', v'⟩ := kv0
    have hcons : dictValues ((c', v') :: rest) = v' :: dictValues rest := rfl
    rw [hcons] at hnv
    have hnotmem := (List.nodup_cons.mp hnv).1
    have hnv' := (List.nodup_cons.mp hnv).2
    rintro ⟨c, v⟩ hmem
    rcases List.mem_cons.mp hmem with h | h
    · rw [Prod.mk.injEq] at h
      obtain ⟨rfl, rfl⟩ := h
      simp [idictGet?]
    · have hne : v' ≠ v := by
        intro he
        refine hnotmem ?_
        rw [he]
        exact List.mem_map_of_mem Prod.snd h
      simpa [idictGet?, hne] using ih hnv' (c, v) h

theorem foldl_idictInsert (d : Dict) :
    ∀ acc : IDict, (dictValues d).Nodup →
      (∀ kv ∈ d, ∀ kv' ∈ acc, kv'.1 ≠ kv.2) →
      d.foldl (fun acc kv => idictInsert acc kv.2 kv.1) acc =
        acc ++ d.map (fun p => (p.2, p.1)) := by
  induction d with
  | nil => intro acc _ _; simp
  | cons kv0 rest ih =>
    obtain ⟨c, v⟩ := kv0
    intro acc hnv hfr
    have hcons : dictValues ((c, v) :: rest) = v :: dictValues rest := rfl
    rw [hcons] at hnv
    have hstep : idictInsert acc v c = acc ++ [(v, c)] :=
      idictInsert_of_not_mem acc v c
        (fun kv' hm => hfr (c, v) (List.mem_cons_self _ _) kv' hm)
    have hfr' : ∀ kv ∈ rest, ∀ kv' ∈ acc ++ [(v, c)], kv'.1 ≠ kv.2 := by
      intro kv hm kv' hm'
      rcases List.mem_append.mp hm' with h | h
      · exact hfr kv (List.mem_cons_of_mem _ hm) kv' h
      · have : kv' = (v, c) := by simpa using h
        rw [this]
        intro he
        refine (List.nodup_cons.mp hnv).1 ?_
        have hv : v = kv.2 := he
        rw [hv]
        exact List.mem_map_of_mem Prod.snd hm
    calc ((c, v) :: rest).foldl (fun acc kv => idictInsert acc kv.2 kv.1) acc
        = rest.foldl (fun acc kv => idictInsert acc kv.2 kv.1)
            (idictInsert acc v c) := rfl
      _ = (acc ++ [(v, c)]) ++ rest.map (fun p => (p.2, p.1)) := by
          rw [hstep]
          exact ih _ (List.nodup_cons.mp hnv).2 hfr'
      _ = acc ++ ((c, v) :: rest).map (fun p => (p.2, p.1)) := by
          rw [List.append_assoc]
          rfl

theorem index_to_char_eq (d : Dict) (hnv : (dictValues d).Nodup) :
    index_to_char d = d.map (fun p => (p.2, p.1)) := by
  unfold index_to_char
  simpa using foldl_idictInsert d [] hnv (by simp)

/-! ### Collision behaviour of `char_to_index` without preconditions -/

theorem assignAlphabet_get_of_not_mem {cs : List Char} {c : Char} (h : c ∉ cs) :
    ∀ (d : Dict) (i : Nat), dictGet? (assignAlphabet d cs i) c = dictGet? d c := by
  induction cs with
  | nil => intro d i; rfl
  | cons x xs ih =>
    intro d i
    have hx : x ≠ c := fun he => h (he ▸ List.mem_cons_self x xs)
    have h' : c ∉ xs := fun hm => h (List.mem_cons_of_mem _ hm)
    show dictGet? (assignAlphabet (dictInsert d x i) xs (i + 1)) c = dictGet? d c
    rw [ih h', dictGet?_insert, if_neg (fun he : x = c => hx he)]

theorem assignAlphabet_get_of_mem {cs : List Char} {c : Char} (h : c ∈ cs) :
    ∀ (d : Dict) (i : Nat),
      ∃ j, i ≤ j ∧ dictGet? (assignAlphabet d cs i) c = some j := by
  induction cs with
  | nil => simp at h
  | cons x xs ih =>
    intro d i
    by_cases hm : c ∈ xs
    · obtain ⟨j, hj, hget⟩ := ih hm (dictInsert d x i) (i + 1)
      exact ⟨j, Nat.le_trans (Nat.le_succ i) hj, hget⟩
    · have hcx : c = x := by
        rcases List.mem_cons.mp h with h' | h'
        · exact h'
        · exact absurd h' hm
      subst hcx
      refine ⟨i, Nat.le_refl i, ?_⟩
      show dictGet? (assignAlphabet (dictInsert d c i) xs (i + 1)) c = some i
      rw [assignAlphabet_get_of_not_mem hm, dictGet?_insert, if_pos rfl]

theorem mem_dictKeys_insert {d : Dict} {k x : Char} {v : Nat} :
    x ∈ dictKeys (dictInsert d k v) ↔ x ∈ dictKeys d ∨ x = k := by
  rw [dictKeys_insert]
  by_cases hm : k ∈ dictKeys d
  · rw [if_pos hm]
    constructor
    · exact Or.inl
    · rintro (h | rfl)
      · exact h
      · exact hm
  · rw [if_neg hm]
    simp [List.mem_append]

theorem dictKeys_nodup_insert {d : Dict} {k : Char} {v : Nat}
    (h : (dictKeys d).Nodup) : (dictKeys (dictInsert d k v)).Nodup := by
  rw [dictKeys_insert]
  by_cases hm : k ∈ dictKeys d
  · rw [if_pos hm]; exact h
  · rw [if_neg hm]
    refine List.Nodup.append h (List.nodup_singleton k) ?_
    intro x hx hx'
    have : x = k := by simpa using hx'
    rw [this] at hx
    exact hm hx

theorem assignAlphabet_keys_nodup (cs : List Char) :
    ∀ (d : Dict) (i : Nat), (dictKeys d).Nodup →
      (dictKeys (assignAlphabet d cs i)).Nodup := by
  induction cs with
  | nil => intro d i h; exact h
  | cons x xs ih =>
    intro d i h
    exact ih (dictInsert d x i) (i + 1) (dictKeys_nodup_insert h)

theorem mem_keys_assignAlphabet (cs : List Char) :
    ∀ (d : Dict) (i : Nat) (x : Char),
      x ∈ dictKeys (assignAlphabet d cs i) → x ∈ dictKeys d ∨ x ∈ cs := by
  induction cs with
  | nil => intro d i x h; exact Or.inl h
  | cons c xs ih =>
    intro d i x h
    rcases ih (dictInsert d c i) (i + 1) x h with h' | h'
    · rcases mem_dictKeys_insert.mp h' with h'' | h''
      · exact Or.inl h''
      · exact Or.inr (h'' ▸ List.mem_cons_self c xs)
    · exact Or.inr (List.mem_cons_of_mem _ h')

theorem char_to_index_keys_nodup_all (a : List Char) (s e : Char) :
    (dictKeys (char_to_index a s e)).Nodup := by
  unfold char_to_index
  refine dictKeys_nodup_insert ?_
  refine assignAlphabet_keys_nodup a [(s, 0)] 1 ?_
  simp [dictKeys]

theorem mem_keys_char_to_index (a : List Char) (s e : Char) (x : Char)
    (h : x ∈ dictKeys (char_to_index a s e)) : x = s ∨ x ∈ a ∨ x = e := by
  unfold char_to_index at h
  rcases mem_dictKeys_insert.mp h with h' | h'
  · rcases mem_keys_assignAlphabet a [(s, 0)] 1 x h' with h'' | h''
    · left
      simpa [dictKeys] using h''
    · exact Or.inr (Or.inl h'')
  · exact Or.inr (Or.inr h')

theorem char_to_index_length_lt (a : List Char) (s e : Char)
    (h : s ∈ a ∨ e ∈ a) : (char_to_index a s e).length < a.length + 2 := by
  have hnd := char_to_index_keys_nodup_all a s e
  have hlen : (char_to_index a s e).length = (dictKeys (char_to_index a s e)).length := by
    simp [dictKeys]
  rw [hlen, ← List.toFinset_card_of_nodup hnd]
  have hsub : (dictKeys (char_to_index a s e)).toFinset ⊆
      insert s (insert e a.toFinset) := by
    intro x hx
    rcases mem_keys_char_to_index a s e x (List.mem_toFinset.mp hx) with h' | h' | h'
    · simp [h']
    · simp [List.mem_toFinset.mpr h']
    · simp [h']
  have hcard := Finset.card_le_card hsub
  rcases h with hsa | hea
  · have hins : insert s (insert e a.toFinset) = insert e a.toFinset :=
      Finset.insert_eq_self.mpr (Finset.mem_insert_of_mem (List.mem_toFinset.mpr hsa))
    rw [hins] at hcard
    have := Finset.card_insert_le e a.toFinset
    have hfin := a.toFinset_card_le
    omega
  · have hins : insert e a.toFinset = a.toFinset :=
      Finset.insert_eq_self.mpr (List.mem_toFinset.mpr hea)
    rw [hins] at hcard
    have := Finset.card_insert_le s a.toFinset
    have hfin := a.toFinset_card_le
    omega

theorem char_to_index_start_overwritten (a : List Char) (s e : Char)
    (h : s ∈ a) : dictGet? (char_to_index a s e) s ≠ some 0 := by
  unfold char_to_index
  rw [dictGet?_insert]
  by_cases hse : e = s
  · rw [if_pos hse]
    simp
  · rw [if_neg hse]
    obtain ⟨j, hj, hget⟩ := assignAlphabet_get_of_mem h [(s, 0)] 1
    rw [hget]
    intro hc
    have : j = 0 := by simpa using hc
    omega

/-! ### The count tensor -/

theorem getD_replicate {α : Type} (n i : Nat) (x d : α) :
    (List.replicate n x).getD i d = if i < n then x else d := by
  induction n generalizing i with
  | zero => simp [List.replicate]
  | succ n ih =>
    match i with
    | 0 => simp [List.replicate]
    | Nat.succ i =>
      show (List.replicate n x).getD i d = _
      rw [ih i]
      by_cases h : i < n
      · rw [if_pos h, if_pos (by omega)]
      · rw [if_neg h, if_neg (by omega)]

theorem zeros_isSquare (n : Nat) : IsSquare n (zeros n) := by
  constructor
  · simp [zeros]
  · intro row hrow
    rw [List.eq_of_mem_replicate hrow]
    simp

theorem getCell_zeros (n i j : Nat) : getCell (zeros n) i j = 0 := by
  unfold getCell zeros
  rw [getD_replicate]
  by_cases h : i < n
  · rw [if_pos h, getD_replicate]
    by_cases h' : j < n
    · rw [if_pos h']
    · rw [if_neg h']
  · rw [if_neg h]
    rfl

theorem sumMat_zeros (n : Nat) : sumMat (zeros n) = 0 := by
  simp [sumMat, zeros, List.map_replicate, List.sum_replicate]

theorem getD_set_self {α : Type} (l : List α) :
    ∀ (i : Nat) (a d : α), i < l.length → (l.set i a).getD i d = a := by
  induction l with
  | nil => intro i a d h; simp at h
  | cons x xs ih =>
    intro i a d h
    match i with
    | 0 => rfl
    | Nat.succ i =>
      show (xs.set i a).getD i d = a
      exact ih i a d (by simpa using h)

theorem getD_set_ne {α : Type} (l : List α) :
    ∀ (i j : Nat) (a d : α), i ≠ j → (l.set i a).getD j d = l.getD j d := by
  induction l with
  | nil => intro i j a d _; rfl
  | cons x xs ih =>
    intro i j a d h
    match i, j with
    | 0, 0 => exact absurd rfl h
    | 0, Nat.succ j => rfl
    | Nat.succ i, 0 => rfl
    | Nat.succ i, Nat.succ j =>
      show (xs.set i a).getD j d = xs.getD j d
      exact ih i j a d (by omega)

theorem sum_set_delta (l : List Int) :
    ∀ (i : Nat) (w : Int), i < l.length →
      (l.set i w).sum = l.sum + (w - l.getD i 0) := by
  induction l with
  | nil => intro i w h; simp at h
  | cons x xs ih =>
    intro i w h
    match i with
    | 0 =>
      show (w :: xs).sum = (x :: xs).sum + (w - x)
      simp only [List.sum_cons]
      ring
    | Nat.succ i =>
      have h' : i < xs.length := by simpa using h
      show (x :: xs.set i w).sum = (x :: xs).sum + (w - xs.getD i 0)
      simp only [List.sum_cons, ih i w h']
      ring

theorem int32wrap_eq_self {v : Int} (h0 : 0 ≤ v) (h1 : v < 2147483648) :
    int32wrap v = v := by
  unfold int32wrap
  omega

theorem int32wrap_int32wrap (v : Int) : int32wrap (int32wrap v) = int32wrap v := by
  unfold int32wrap
  omega

theorem int32wrap_add_right (a b : Int) :
    int32wrap (int32wrap a + b) = int32wrap (a + b) := by
  unfold int32wrap
  omega

theorem torchIncr_spec {n : Nat} {m : List (List Int)} (hm : IsSquare n m)
    {i j : Nat} (hi : i < n) (hj : j < n) :
    ∃ m', torchIncr m i j = some m' ∧ IsSquare n m' ∧
      (∀ a b, getCell m' a b =
        if a = i ∧ b = j then int32wrap (getCell m a b + 1)
        else getCell m a b) ∧
      sumMat m' = sumMat m + (int32wrap (getCell m i j + 1) - getCell m i j) := by
  obtain ⟨hlen, hrows⟩ := hm
  have hi' : i < m.length := by omega
  have hrow : m[i] ∈ m := List.getElem_mem hi'
  have hrlen : m[i].length = n := hrows _ hrow
  have hj' : j < m[i].length := by omega
  have h1 : m[i]? = some m[i] := List.getElem?_eq_getElem hi'
  have h2 : m[i][j]? = some m[i][j] := List.getElem?_eq_getElem hj'
  have hgd : m.getD i [] = m[i] := List.getD_eq_getElem m [] hi'
  have hrgd : m[i].getD j 0 = m[i][j] := List.getD_eq_getElem m[i] 0 hj'
  have hcij : getCell m i j = m[i][j] := by
    unfold getCell
    rw [hgd, hrgd]
  refine ⟨m.set i (m[i].set j (int32wrap (m[i][j] + 1))), ?_, ?_, ?_, ?_⟩
  · simp [torchIncr, h1, h2]
  · constructor
    · rw [List.length_set]; exact hlen
    · intro row hmem
      rcases List.mem_or_eq_of_mem_set hmem with h | h
      · exact hrows _ h
      · rw [h, List.length_set]
        exact hrlen
  · intro a b
    by_cases ha : a = i
    · subst ha
      have houter : (m.set a (m[a].set j (int32wrap (m[a][j] + 1)))).getD a [] =
          m[a].set j (int32wrap (m[a][j] + 1)) := getD_set_self m a _ [] hi'
      by_cases hb : b = j
      · subst hb
        rw [if_pos ⟨rfl, rfl⟩]
        unfold getCell
        rw [houter, getD_set_self m[a] b _ 0 hj', hgd, hrgd]
      · rw [if_neg (fun hc => hb hc.2)]
        unfold getCell
        rw [houter, getD_set_ne m[a] j b _ 0 (fun hc => hb hc.symm), hgd]
    · rw [if_neg (fun hc => ha hc.1)]
      unfold getCell
      rw [getD_set_ne m i a _ [] (fun hc => ha hc.symm)]
  · unfold sumMat
    rw [List.map_set]
    have hmap : (m.map List.sum).getD i 0 = m[i].sum := by
      rw [List.getD_eq_getElem (m.map List.sum) 0 (by simpa using hi')]
      exact List.getElem_map List.sum
    have hsumrow : (m[i].set j (int32wrap (m[i][j] + 1))).sum =
        m[i].sum + (int32wrap (m[i][j] + 1) - m[i][j]) := by
      rw [← hrgd, sum_set_delta m[i] j _ hj', hrgd]
    rw [sum_set_delta (m.map List.sum) i _ (by simpa using hi'), hmap, hsumrow,
      hcij]
    ring

theorem countLoop_isSome (d : Dict) {n : Nat} (hn : ∀ kv ∈ d, kv.2 < n) :
    ∀ (bs : List (Char × Char)) (m : List (List Int)), IsSquare n m →
      ∃ m', countLoop d m bs = some m' ∧ IsSquare n m' := by
  intro bs
  induction bs with
  | nil => intro m hm; exact ⟨m, rfl, hm⟩
  | cons p rest ih =>
    obtain ⟨c1, c2⟩ := p
    intro m hm
    cases hg1 : dictGet? d c1 with
    | none =>
      obtain ⟨m', hloop, hsq⟩ := ih m hm
      exact ⟨m', by simpa [countLoop, hg1] using hloop, hsq⟩
    | some i0 =>
      cases hg2 : dictGet? d c2 with
      | none =>
        obtain ⟨m', hloop, hsq⟩ := ih m hm
        exact ⟨m', by simpa [countLoop, hg1, hg2] using hloop, hsq⟩
      | some j0 =>
        have hi0 : i0 < n := hn _ (mem_of_dictGet?_eq_some hg1)
        have hj0 : j0 < n := hn _ (mem_of_dictGet?_eq_some hg2)
        obtain ⟨m1, hstep, hsq1, _, _⟩ := torchIncr_spec hm hi0 hj0
        obtain ⟨m', hloop, hsq⟩ := ih m1 hsq1
        exact ⟨m', by simpa [countLoop, hg1, hg2, hstep] using hloop, hsq⟩

theorem countLoop_spec (d : Dict) {n : Nat} (hn : ∀ kv ∈ d, kv.2 < n) :
    ∀ (bs : List (Char × Char)) (m : List (List Int)), IsSquare n m →
      (∀ i j, 0 ≤ getCell m i j) →
      (∀ i j, getCell m i j + (bs.countP (fun p =>
        dictGet? d p.1 == some i && (dictGet? d p.2 == some j)) : Int) <
        2147483648) →
      ∃ m', countLoop d m bs = some m' ∧ IsSquare n m' ∧
        (∀ i j, getCell m' i j = getCell m i j + (bs.countP (fun p =>
          dictGet? d p.1 == some i && (dictGet? d p.2 == some j)) : Int)) ∧
        sumMat m' = sumMat m + (bs.countP (fun p =>
          (dictGet? d p.1).isSome && (dictGet? d p.2).isSome) : Int) := by
  intro bs
  induction bs with
  | nil =>
    intro m hm _ _
    exact ⟨m, rfl, hm, by simp, by simp⟩
  | cons p rest ih =>
    obtain ⟨c1, c2⟩ := p
    intro m hm hpos hbound
    cases hg1 : dictGet? d c1 with
    | none =>
      have hbound' : ∀ i j, getCell m i j + (rest.countP (fun p =>
          dictGet? d p.1 == some i && (dictGet? d p.2 == some j)) : Int) <
          2147483648 := by
        intro i j
        have hb := hbound i j
        rw [List.countP_cons] at hb
        simpa [hg1] using hb
      obtain ⟨m', hloop, hsq, hcells, hsum⟩ := ih m hm hpos hbound'
      refine ⟨m', ?_, hsq, ?_, ?_⟩
      · simpa [countLoop, hg1] using hloop
      · intro i j
        rw [List.countP_cons]
        simpa [hg1] using hcells i j
      · rw [List.countP_cons]
        simpa [hg1] using hsum
    | some i0 =>
      cases hg2 : dictGet? d c2 with
      | none =>
        have hbound' : ∀ i j, getCell m i j + (rest.countP (fun p =>
            dictGet? d p.1 == some i && (dictGet? d p.2 == some j)) : Int) <
            2147483648 := by
          intro i j
          have hb := hbound i j
          rw [List.countP_cons] at hb
          simpa [hg1, hg2] using hb
        obtain ⟨m', hloop, hsq, hcells, hsum⟩ := ih m hm hpos hbound'
        refine ⟨m', ?_, hsq, ?_, ?_⟩
        · simpa [countLoop, hg1, hg2] using hloop
        · intro i j
          rw [List.countP_cons]
          simpa [hg1, hg2] using hcells i j
        · rw [List.countP_cons]
          simpa [hg1, hg2] using hsum
      | some j0 =>
        have hi0 : i0 < n := hn _ (mem_of_dictGet?_eq_some hg1)
        have hj0 : j0 < n := hn _ (mem_of_dictGet?_eq_some hg2)
        have hb00 := hbound i0 j0
        rw [List.countP_cons] at hb00
        have hhead : ((dictGet? d c1 == some i0) &&
            (dictGet? d c2 == some j0)) = true := by
          simp [hg1, hg2]
        simp only [hhead, if_true] at hb00
        have hv1 : 0 ≤ getCell m i0 j0 + 1 := by
          have := hpos i0 j0
          omega
        have hv2 : getCell m i0 j0 + 1 < 2147483648 := by
          push_cast at hb00
          omega
        have hwrap : int32wrap (getCell m i0 j0 + 1) = getCell m i0 j0 + 1 :=
          int32wrap_eq_self hv1 hv2
        obtain ⟨m1, hstep, hsq1, hcell1, hsum1⟩ := torchIncr_spec hm hi0 hj0
        have hcell1' : ∀ a b, getCell m1 a b =
            if a = i0 ∧ b = j0 then getCell m a b + 1 else getCell m a b := by
          intro a b
          rw [hcell1 a b]
          by_cases hab : a = i0 ∧ b = j0
          · obtain ⟨rfl, rfl⟩ := hab
            rw [if_pos ⟨rfl, rfl⟩, if_pos ⟨rfl, rfl⟩, hwrap]
          · rw [if_neg hab, if_neg hab]
        have hsum1' : sumMat m1 = sumMat m + 1 := by
          rw [hsum1, hwrap]
          ring
        have hpos1 : ∀ i j, 0 ≤ getCell m1 i j := by
          intro i j
          rw [hcell1' i j]
          by_cases hab : i = i0 ∧ j = j0
          · rw [if_pos hab]
            have := hpos i j
            omega
          · rw [if_neg hab]
            exact hpos i j
        have hbound1 : ∀ i j, getCell m1 i j + (rest.countP (fun p =>
            dictGet? d p.1 == some i && (dictGet? d p.2 == some j)) : Int) <
            2147483648 := by
          intro i j
          rw [hcell1' i j]
          by_cases hab : i = i0 ∧ j = j0
          · obtain ⟨rfl, rfl⟩ := hab
            rw [if_pos ⟨rfl, rfl⟩]
            omega
          · rw [if_neg hab]
            have hb := hbound i j
            rw [List.countP_cons] at hb
            have hf : ((dictGet? d c1 == some i) &&
                (dictGet? d c2 == some j)) = false := by
              rw [hg1, hg2]
              by_cases h1 : i0 = i
              · have hj : (some j0 == some j) = false :=
                  beq_eq_false_iff_ne.mpr
                    (fun hs => hab ⟨h1.symm, (Option.some.inj hs).symm⟩)
                rw [hj, Bool.and_false]
              · have hi : (some i0 == some i) = false :=
                  beq_eq_false_iff_ne.mpr
                    (fun hs => h1 (Option.some.inj hs))
                rw [hi, Bool.false_and]
            simpa [hf] using hb
        obtain ⟨m', hloop, hsq, hcells, hsum⟩ := ih m1 hsq1 hpos1 hbound1
        refine ⟨m', ?_, hsq, ?_, ?_⟩
        · simpa [countLoop, hg1, hg2, hstep] using hloop
        · intro i j
          rw [List.countP_cons, hcells i j, hcell1' i j]
          by_cases hij : i = i0 ∧ j = j0
          · obtain ⟨rfl, rfl⟩ := hij
            rw [if_pos ⟨rfl, rfl⟩, hhead]
            push_cast
            simp only [if_true]
            omega
          · rw [if_neg hij]
            have hf : ((dictGet? d c1 == some i) &&
                (dictGet? d c2 == some j)) = false := by
              rw [hg1, hg2]
              by_cases h1 : i0 = i
              · have hj : (some j0 == some j) = false :=
                  beq_eq_false_iff_ne.mpr
                    (fun hs => hij ⟨h1.symm, (Option.some.inj hs).symm⟩)
                rw [hj, Bool.and_false]
              · have hi : (some i0 == some i) = false :=
                  beq_eq_false_iff_ne.mpr
                    (fun hs => h1 (Option.some.inj hs))
                rw [hi, Bool.false_and]
            rw [hf]
            simp
        · rw [List.countP_cons, hsum, hsum1']
          simp [hg1, hg2]
          ring

/-! ### The bigram extractor -/

theorem load_cons (line : List Char) (rest : List (List Char)) (s e : Char) :
    load_and_preprocess_data (line :: rest) s e =
      lineBigrams s e line ++ load_and_preprocess_data rest s e := rfl

theorem load_single (line : List Char) (s e : Char) :
    load_and_preprocess_data [line] s e = lineBigrams s e line := by
  rw [load_cons]
  simp [load_and_preprocess_data]

theorem lineBigrams_of_split {line w : List Char} {ts : List (List Char)}
    (s e : Char) (h : pySplit line = w :: ts) :
    lineBigrams s e line = bigramsOf (s :: (pyLower w ++ [e])) := by
  simp [lineBigrams, h]

theorem lineBigrams_of_blank {line : List Char} (s e : Char)
    (h : pySplit line = []) : lineBigrams s e line = [] := by
  simp [lineBigrams, h]

theorem pySplit_single {c : Char} (h : isPySpace c = false) :
    pySplit [c] = [[c]] := by
  simp [pySplit, splitAux, h]

/-! ### Overflow of the int32 counter -/

theorem countP_replicate {α : Type} (p : α → Bool) (n : Nat) (a : α) :
    (List.replicate n a).countP p = if p a then n else 0 := by
  induction n with
  | zero => simp
  | succ n ih =>
    rw [List.replicate_succ, List.countP_cons, ih]
    by_cases h : p a
    · simp [h]
    · simp [h]

theorem countLoop_single_cell (k : Nat) :
    ∀ v : Int, int32wrap v = v →
      countLoop [('a', 0)] [[v]] (List.replicate k ('a', 'a')) =
        some [[int32wrap (v + k)]] := by
  induction k with
  | zero =>
    intro v hv
    simp [countLoop, hv]
  | succ k ih =>
    intro v hv
    rw [List.replicate_succ]
    have hstep : countLoop [('a', 0)] [[v]]
        (('a', 'a') :: List.replicate k ('a', 'a')) =
        countLoop [('a', 0)] [[int32wrap (v + 1)]]
          (List.replicate k ('a', 'a')) := by
      simp [countLoop, dictGet?, torchIncr]
    rw [hstep, ih (int32wrap (v + 1)) (int32wrap_int32wrap _)]
    have harith : int32wrap (int32wrap (v + 1) + (k : Int)) =
        int32wrap (v + ((k : Nat) + 1 : Nat)) := by
      rw [int32wrap_add_right]
      congr 1
      push_cast
      ring
    rw [harith]

/-- Claim C1 (counterexample): the tensor is `torch.int32` and wraps at
2^31 = 2147483648 silently, so the per-cell count, non-negativity and
total-sum conclusions fail for large bigram lists: counting 2^31 copies
of the in-vocabulary bigram ('a','a') against the mapping {'a': 0}
leaves cell (0,0) at -2^31 (not the 2^31 in-vocabulary bigrams the claim
demands), and the total sum differs from the in-vocabulary count. -/
theorem count_bigrams_int32_counterexample :
    (count_bigrams (List.replicate 2147483648 ('a', 'a')) [('a', 0)]).map
      (fun m => getCell m 0 0) = some (-2147483648) ∧
    (List.replicate 2147483648 ('a', 'a')).countP
      (fun p => (dictGet? [('a', 0)] p.1).isSome &&
        (dictGet? [('a', 0)] p.2).isSome) = 2147483648 ∧
    (count_bigrams (List.replicate 2147483648 ('a', 'a')) [('a', 0)]).map
      sumMat ≠ some ((2147483648 : Int)) := by
  have hwrap0 : int32wrap 0 = 0 := by
    unfold int32wrap
    omega
  have hrun : count_bigrams (List.replicate 2147483648 ('a', 'a')) [('a', 0)] =
      some [[(-2147483648 : Int)]] := by
    have h := countLoop_single_cell 2147483648 0 hwrap0
    show countLoop [('a', 0)] [[(0 : Int)]]
      (List.replicate 2147483648 ('a', 'a')) = some [[(-2147483648 : Int)]]
    rw [h]
    congr 2
  refine ⟨?_, ?_, ?_⟩
  · rw [hrun]
    rfl
  · rw [countP_replicate]
    rfl
  · rw [hrun]
    intro hc
    have : sumMat [[(-2147483648 : Int)]] = (2147483648 : Int) :=
      Option.some.inj hc
    simp [sumMat] at this

/-- Claim C1 (amended): for every character-to-index mapping whose index
values lie below its size (the vocabulary-mapping invariant of the data
model) and every bigram list shorter than 2^31 (so that the silent int32
wrap-around cannot occur), `count_bigrams` returns a square matrix of
size `len(mapping)`, non-negative, in which cell `(index(a), index(b))`
holds exactly the number of bigrams mapping there (each incremented by 1
from the zero initialisation), bigrams with either character absent from
the mapping are skipped with no error and no count, and the total sum
equals the number of bigrams whose two characters are both in the
mapping. -/
theorem count_bigrams_spec (bs : List (Char × Char)) (d : Dict)
    (hn : ∀ kv ∈ d, kv.2 < d.length)
    (hlen : (bs.length : Int) < 2147483648) :
    ∃ m, count_bigrams bs d = some m ∧ IsSquare d.length m ∧
      (∀ i j, 0 ≤ getCell m i j) ∧
      (∀ i j, getCell m i j = (bs.countP (fun p =>
        dictGet? d p.1 == some i && (dictGet? d p.2 == some j)) : Int)) ∧
      sumMat m = (bs.countP (fun p =>
        (dictGet? d p.1).isSome && (dictGet? d p.2).isSome) : Int) := by
  have hpos : ∀ i j, 0 ≤ getCell (zeros d.length) i j := by
    intro i j
    rw [getCell_zeros]
  have hbound : ∀ i j, getCell (zeros d.length) i j + (bs.countP (fun p =>
      dictGet? d p.1 == some i && (dictGet? d p.2 == some j)) : Int) <
      2147483648 := by
    intro i j
    rw [getCell_zeros]
    have hc : bs.countP (fun p =>
        dictGet? d p.1 == some i && (dictGet? d p.2 == some j)) ≤ bs.length :=
      List.countP_le_length _
    have hc' : ((bs.countP (fun p =>
        dictGet? d p.1 == some i && (dictGet? d p.2 == some j))) : Int) ≤
        (bs.length : Int) := by
      exact_mod_cast hc
    omega
  obtain ⟨m, hloop, hsq, hcells, hsum⟩ :=
    countLoop_spec d hn bs (zeros d.length) (zeros_isSquare d.length) hpos hbound
  refine ⟨m, hloop, hsq, ?_, ?_, ?_⟩
  · intro i j
    rw [hcells i j, getCell_zeros, zero_add]
    exact Int.ofNat_nonneg _
  · intro i j
    rw [hcells i j, getCell_zeros, zero_add]
  · rw [hsum, sumMat_zeros, zero_add]

/-- Witness for C1 at a one-entry mapping and a short list with one
out-of-vocabulary bigram. -/
theorem count_bigrams_spec_witness :
    (∀ kv ∈ ([('a', 0)] : Dict), kv.2 < ([('a', 0)] : Dict).length) ∧
    (([('a', 'a'), ('x', 'a')] : List (Char × Char)).length : Int) <
      2147483648 ∧
    (∃ m, count_bigrams [('a', 'a'), ('x', 'a')] [('a', 0)] = some m ∧
      IsSquare ([('a', 0)] : Dict).length m ∧
      (∀ i j, 0 ≤ getCell m i j) ∧
      (∀ i j, getCell m i j = (List.countP (fun p =>
        dictGet? [('a', 0)] p.1 == some i && (dictGet? [('a', 0)] p.2 == some j))
        [('a', 'a'), ('x', 'a')] : Int)) ∧
      sumMat m = (List.countP (fun p =>
        (dictGet? [('a', 0)] p.1).isSome && (dictGet? [('a', 0)] p.2).isSome)
        [('a', 'a'), ('x', 'a')] : Int)) :=
  ⟨by decide, by decide,
   count_bigrams_spec [('a', 'a'), ('x', 'a')] [('a', 0)]
     (by decide) (by decide)⟩

/-- Claim C3: under a duplicate-free alphabet disjoint from the two
distinct sentinels, `char_to_index` maps the start token to 0, the k-th
alphabet character to k + 1, the end token to `len(alphabet) + 1`, has
exactly `len(alphabet) + 2` entries, and its values cover the contiguous
range `[0, len(alphabet) + 2)`. -/
theorem char_to_index_spec (a : List Char) (s e : Char)
    (hnd : a.Nodup) (hs : s ∉ a) (he : e ∉ a) (hse : s ≠ e) :
    dictGet? (char_to_index a s e) s = some 0 ∧
    (∀ k, k < a.length →
      dictGet? (char_to_index a s e) (a.getD k ' ') = some (k + 1)) ∧
    dictGet? (char_to_index a s e) e = some (a.length + 1) ∧
    (char_to_index a s e).length = a.length + 2 ∧
    dictValues (char_to_index a s e) = List.range (a.length + 2) :=
  ⟨char_to_index_get_start a s e hnd hs he hse,
   char_to_index_get_alpha a s e hnd hs he hse,
   char_to_index_get_end a s e,
   char_to_index_length a s e hnd hs he hse,
   char_to_index_values a s e hnd hs he hse⟩

/-- Witness for C3 at the alphabet "ab" with sentinels '-' and '.'. -/
theorem char_to_index_spec_witness :
    (['a', 'b'] : List Char).Nodup ∧ '-' ∉ (['a', 'b'] : List Char) ∧
    '.' ∉ (['a', 'b'] : List Char) ∧ ('-' : Char) ≠ '.' ∧
    (dictGet? (char_to_index ['a', 'b'] '-' '.') '-' = some 0 ∧
    (∀ k, k < (['a', 'b'] : List Char).length →
      dictGet? (char_to_index ['a', 'b'] '-' '.')
        ((['a', 'b'] : List Char).getD k ' ') = some (k + 1)) ∧
    dictGet? (char_to_index ['a', 'b'] '-' '.') '.' =
      some ((['a', 'b'] : List Char).length + 1) ∧
    (char_to_index ['a', 'b'] '-' '.').length =
      (['a', 'b'] : List Char).length + 2 ∧
    dictValues (char_to_index ['a', 'b'] '-' '.') =
      List.range ((['a', 'b'] : List Char).length + 2)) :=
  ⟨by decide, by decide, by decide, by decide,
   char_to_index_spec ['a', 'b'] '-' '.'
     (by decide) (by decide) (by decide) (by decide)⟩

/-- Claim C4: under the same preconditions the forward and reverse
mappings are exact inverses: every symbol round-trips, every index in
`[0, len(alphabet) + 2)` is mapped exactly once, and the reverse mapping
enumerates exactly the symbols. -/
theorem vocabulary_bijection (a : List Char) (s e : Char)
    (hnd : a.Nodup) (hs : s ∉ a) (he : e ∉ a) (hse : s ≠ e) :
    (∀ c ∈ s :: (a ++ [e]),
      ∃ i, dictGet? (char_to_index a s e) c = some i ∧
        idictGet? (index_to_char (char_to_index a s e)) i = some c) ∧
    (index_to_char (char_to_index a s e)).map Prod.fst =
      List.range (a.length + 2) ∧
    (index_to_char (char_to_index a s e)).map Prod.snd = s :: (a ++ [e]) := by
  have hkeys := char_to_index_keys a s e hnd hs he hse
  have hknd := char_to_index_keys_nodup a s e hnd hs he hse
  have hvals := char_to_index_values a s e hnd hs he hse
  have hvnd : (dictValues (char_to_index a s e)).Nodup := by
    rw [hvals]
    exact List.nodup_range _
  have hinv := index_to_char_eq _ hvnd
  refine ⟨?_, ?_, ?_⟩
  · intro c hc
    have hmemk : c ∈ dictKeys (char_to_index a s e) := by
      rw [hkeys]
      exact hc
    obtain ⟨kv, hkv, hfst⟩ := List.mem_map.mp hmemk
    refine ⟨kv.2, ?_, ?_⟩
    · rw [← hfst]
      exact dictGet?_of_mem hknd kv hkv
    · rw [hinv, ← hfst]
      exact idictGet?_map_swap hvnd kv hkv
  · rw [hinv, List.map_map]
    exact hvals
  · rw [hinv, List.map_map]
    exact hkeys

/-- Witness for C4 at the alphabet "ab" with sentinels '-' and '.'. -/
theorem vocabulary_bijection_witness :
    (['a', 'b'] : List Char).Nodup ∧ '-' ∉ (['a', 'b'] : List Char) ∧
    '.' ∉ (['a', 'b'] : List Char) ∧ ('-' : Char) ≠ '.' ∧
    ((∀ c ∈ '-' :: ((['a', 'b'] : List Char) ++ ['.']),
      ∃ i, dictGet? (char_to_index ['a', 'b'] '-' '.') c = some i ∧
        idictGet? (index_to_char (char_to_index ['a', 'b'] '-' '.')) i = some c) ∧
    (index_to_char (char_to_index ['a', 'b'] '-' '.')).map Prod.fst =
      List.range ((['a', 'b'] : List Char).length + 2) ∧
    (index_to_char (char_to_index ['a', 'b'] '-' '.')).map Prod.snd =
      '-' :: ((['a', 'b'] : List Char) ++ ['.'])) :=
  ⟨by decide, by decide, by decide, by decide,
   vocabulary_bijection ['a', 'b'] '-' '.'
     (by decide) (by decide) (by decide) (by decide)⟩

/-- Claim C5 (counterexample): a source with the single-character word "a"
yields two bigrams, not the single bigram (start_token, end_token). -/
theorem single_char_counterexample :
    load_and_preprocess_data [['a']] '-' '.' ≠ [('-', '.')] ∧
    (load_and_preprocess_data [['a']] '-' '.').length ≠ 1 := by decide

/-- Claim C5 (amended): a single-record source whose word is one
character c that is not Python whitespace and whose Python lowercase is
the single character lc yields exactly the two bigrams (start_token, lc)
and (lc, end_token). -/
theorem single_char_word_bigrams (s e c lc : Char) (h : isPySpace c = false)
    (hl : pyLowerChar c = [lc]) :
    load_and_preprocess_data [[c]] s e = [(s, lc), (lc, e)] := by
  rw [load_single, lineBigrams_of_split s e (pySplit_single h)]
  have hpl : pyLower [c] = [lc] := by
    simp [pyLower, hl]
  rw [hpl]
  rfl

/-- Witness for C5 (amended) at the word "A". -/
theorem single_char_word_bigrams_witness :
    isPySpace 'A' = false ∧ pyLowerChar 'A' = ['a'] ∧
    load_and_preprocess_data [['A']] '-' '.' = [('-', 'a'), ('a', '.')] :=
  ⟨by decide, by decide,
   single_char_word_bigrams '-' '.' 'A' 'a' (by decide) (by decide)⟩

/-- Claim C6: when the alphabet contains a sentinel, `char_to_index`
performs no validation: the later index assignment wins (the end token
always gets `len(alphabet) + 1`, and a start token occurring in the
alphabet no longer maps to 0), and the mapping has fewer than
`len(alphabet) + 2` entries. -/
theorem char_to_index_collision (a : List Char) (s e : Char) :
    dictGet? (char_to_index a s e) e = some (a.length + 1) ∧
    (s ∈ a → dictGet? (char_to_index a s e) s ≠ some 0) ∧
    ((s ∈ a ∨ e ∈ a) → (char_to_index a s e).length < a.length + 2) :=
  ⟨char_to_index_get_end a s e,
   fun h => char_to_index_start_overwritten a s e h,
   fun h => char_to_index_length_lt a s e h⟩

/-- Witness for C6 at an alphabet containing the start token. -/
theorem char_to_index_collision_witness :
    ('-' ∈ (['a', '-'] : List Char)) ∧
    dictGet? (char_to_index ['a', '-'] '-' '.') '-' ≠ some 0 ∧
    (char_to_index ['a', '-'] '-' '.').length <
      (['a', '-'] : List Char).length + 2 :=
  ⟨by decide,
   (char_to_index_collision ['a', '-'] '-' '.').2.1 (by decide),
   (char_to_index_collision ['a', '-'] '-' '.').2.2 (Or.inl (by decide))⟩

/-- Claim C7: records that split into no tokens contribute zero bigrams
and no error; the output equals the output on the source with those
records removed, preserving order. -/
theorem blank_lines_skipped (lines : List (List Char)) (s e : Char) :
    load_and_preprocess_data lines s e =
      load_and_preprocess_data
        (lines.filter (fun l => !(pySplit l).isEmpty)) s e := by
  induction lines with
  | nil => rfl
  | cons line rest ih =>
    rw [load_cons, List.filter_cons]
    by_cases h : (pySplit line).isEmpty
    · have hempty : pySplit line = [] := by
        rwa [List.isEmpty_iff] at h
      rw [lineBigrams_of_blank s e hempty]
      simp [h, ih]
    · simp only [h, Bool.not_false, if_pos]
      rw [load_cons, ih]

/-- Claim C8: `count_bigrams` is deterministic — identical bigram lists
and identical mappings give identical tables — and the purely functional
embedding cannot mutate its arguments; the full pipeline run twice on the
same lines, alphabet and sentinels yields identical frequency tables. -/
theorem pipeline_deterministic (bs1 bs2 : List (Char × Char)) (d1 d2 : Dict)
    (lines1 lines2 : List (List Char)) (a1 a2 : List Char) (s1 s2 e1 e2 : Char)
    (hb : bs1 = bs2) (hd : d1 = d2) (hl : lines1 = lines2) (ha : a1 = a2)
    (hs : s1 = s2) (he : e1 = e2) :
    count_bigrams bs1 d1 = count_bigrams bs2 d2 ∧
    pipeline lines1 a1 s1 e1 = pipeline lines2 a2 s2 e2 := by
  subst hb
  subst hd
  subst hl
  subst ha
  subst hs
  subst he
  exact ⟨rfl, rfl⟩

/-- Witness for C8 on concrete equal inputs. -/
theorem pipeline_deterministic_witness :
    count_bigrams [('a', 'a')] [('a', 0)] = count_bigrams [('a', 'a')] [('a', 0)] ∧
    pipeline [['a']] ['a'] '-' '.' = pipeline [['a']] ['a'] '-' '.' :=
  pipeline_deterministic [('a', 'a')] [('a', 'a')] [('a', 0)] [('a', 0)]
    [['a']] [['a']] ['a'] ['a'] '-' '-' '.' '.' rfl rfl rfl rfl rfl rfl

/-- Claim C9: an empty source yields no bigrams, and counting them against
any vocabulary yields the zero matrix of shape
`len(mapping) × len(mapping)` with every cell zero. -/
theorem empty_source_all_zeros (d : Dict) (s e : Char) :
    load_and_preprocess_data [] s e = [] ∧
    count_bigrams (load_and_preprocess_data [] s e) d = some (zeros d.length) ∧
    IsSquare d.length (zeros d.length) ∧
    (∀ i j, getCell (zeros d.length) i j = 0) :=
  ⟨rfl, rfl, zeros_isSquare d.length, fun i j => getCell_zeros d.length i j⟩

/-- Claim C10: under valid vocabulary inputs every index value of the
mapping lies in `[0, len(mapping))`, so the matrix increment in
`count_bigrams` is always in bounds and counting never fails. -/
theorem char_to_index_safe_indexing (a : List Char) (s e : Char)
    (hnd : a.Nodup) (hs : s ∉ a) (he : e ∉ a) (hse : s ≠ e) :
    (∀ kv ∈ char_to_index a s e, kv.2 < (char_to_index a s e).length) ∧
    ∀ bs, (count_bigrams bs (char_to_index a s e)).isSome := by
  have hlen := char_to_index_length a s e hnd hs he hse
  have hvals := char_to_index_values a s e hnd hs he hse
  have hin : ∀ kv ∈ char_to_index a s e,
      kv.2 < (char_to_index a s e).length := by
    intro kv hkv
    have hmem : kv.2 ∈ dictValues (char_to_index a s e) :=
      List.mem_map_of_mem Prod.snd hkv
    rw [hvals] at hmem
    rw [hlen]
    exact List.mem_range.mp hmem
  refine ⟨hin, ?_⟩
  intro bs
  obtain ⟨m, hloop, _⟩ := countLoop_isSome (char_to_index a s e) hin bs
    (zeros (char_to_index a s e).length) (zeros_isSquare _)
  unfold count_bigrams
  rw [hloop]
  rfl

/-- Witness for C10 at the alphabet "ab", sentinels '-' and '.', and a
bigram list with an out-of-vocabulary character. -/
theorem char_to_index_safe_indexing_witness :
    (['a', 'b'] : List Char).Nodup ∧ '-' ∉ (['a', 'b'] : List Char) ∧
    '.' ∉ (['a', 'b'] : List Char) ∧ ('-' : Char) ≠ '.' ∧
    (∀ kv ∈ char_to_index ['a', 'b'] '-' '.',
      kv.2 < (char_to_index ['a', 'b'] '-' '.').length) ∧
    (count_bigrams [('a', 'b'), ('x', 'a')]
      (char_to_index ['a', 'b'] '-' '.')).isSome :=
  ⟨by decide, by decide, by decide, by decide,
   (char_to_index_safe_indexing ['a', 'b'] '-' '.'
     (by decide) (by decide) (by decide) (by decide)).1,
   (char_to_index_safe_indexing ['a', 'b'] '-' '.'
     (by decide) (by decide) (by decide) (by decide)).2 [('a', 'b'), ('x', 'a')]⟩

end DataProcessing
